import Mathlib

/-!
Verification of the rift tiling window manager core against its
natural-language specification.

The development shallowly embeds the relevant parts of the source:

* `src/layout_engine/systems/scroll.rs` — the horizontal scroll layout
  system (strip of windows, width units, continuous scroll offset,
  snap-to-selection).
* `src/layout_engine/engine.rs` — the layout engine's command routing
  for `ScrollWorkspace` and `SwitchToWorkspace`.
* `src/actor/reactor.rs` — the reactor's event-folding arms for
  `WindowFrameChanged`, `SpaceChanged`, `ScreenParametersChanged`,
  `MissionControlNativeExited`, `MouseUp`,
  `ApplicationThreadTerminated`, and the drag-swap helper
  `maybe_swap_on_drag`.

Conventions:

* `f64` values are modelled as exact rationals (`ℚ`).  All float
  operations used by the embedded code (`+`, `clamp`, `floor`,
  comparisons) are order-exact, and none of the verified properties
  depend on rounding.
* Machine collaborators outside the embedded core (window-server
  queries, app workers, the raise manager) are treated as oracles or
  recorded as effects, following the spec's scope (§1: platform glue is
  out of scope and appears only as typed interfaces).
* Components of this repository whose sources are not available
  (virtual workspace manager, floating manager, drag manager internals)
  are modelled from the spec; each such definition carries a doc
  comment starting with `Modelled from the spec:`.
-/

namespace Rift

/-- WindowId = (application pid, per-app window index), from
`actor/app.rs` (`WindowId { pid, idx }`). -/
structure WindowId where
  pid : Int
  idx : Nat
deriving DecidableEq, Repr

instance : Inhabited WindowId := ⟨⟨0, 0⟩⟩

/-- CGRect modelled with exact rational coordinates. -/
structure Frame where
  x : ℚ
  y : ℚ
  w : ℚ
  h : ℚ
deriving DecidableEq, Repr

abbrev SpaceId := Nat
abbrev WorkspaceId := Nat
abbrev LayoutId := Nat

/-- Rust `f64::clamp(lo, hi)`: `min (max x lo) hi` for `lo ≤ hi`. -/
def clampQ (x lo hi : ℚ) : ℚ := min (max x lo) hi

/-- Faithful translation of `iter().position(|w| *w == x)`. -/
def listPos (l : List WindowId) (x : WindowId) : Option Nat :=
  match l with
  | [] => none
  | y :: ys => if y = x then some 0 else (listPos ys x).map (· + 1)

/-- Rust `Vec::resize(n, v)`: truncate to `n` or extend with copies of `v`. -/
def resizeList (l : List ℚ) (n : Nat) (v : ℚ) : List ℚ :=
  l.take n ++ List.replicate (n - l.length) v

/-- Rust `Vec::swap(i, j)` (both indices in bounds in every call site we
embed; out-of-bounds leaves the list unchanged where Rust would panic). -/
def swapIdx (l : List WindowId) (i j : Nat) : List WindowId :=
  match l[i]?, l[j]? with
  | some a, some b => (l.set i b).set j a
  | _, _ => l

/-- `Vec::swap` for the widths vector. -/
def swapIdxQ (l : List ℚ) (i j : Nat) : List ℚ :=
  match l[i]?, l[j]? with
  | some a, some b => (l.set i b).set j a
  | _, _ => l

/-- `const MIN_WIDTH_UNITS: f64 = 0.2` (scroll.rs). -/
def MIN_WIDTH_UNITS : ℚ := 0.2

/-- `enum ScrollDirection { Forward, Reverse }` (scroll.rs). -/
inductive ScrollDirection where
  | forward
  | reverse
deriving DecidableEq, Repr

def ScrollDirection.toggle : ScrollDirection → ScrollDirection
  | .forward => .reverse
  | .reverse => .forward

/-- `struct ScrollLayoutState` (scroll.rs lines 32-39). -/
structure ScrollLayoutState where
  windows : List WindowId
  selected : Option WindowId
  widths : List ℚ
  scroll_offset : ℚ
  direction : ScrollDirection
deriving DecidableEq, Repr

/-- `Default for ScrollLayoutState`. -/
def ScrollLayoutState.default : ScrollLayoutState :=
  { windows := [], selected := none, widths := [], scroll_offset := 0,
    direction := .forward }

namespace ScrollLayoutState

/-- `fn max_offset(&self) -> f64` (scroll.rs lines 54-60). -/
def max_offset (s : ScrollLayoutState) : ℚ :=
  if 1 < s.windows.length then ((s.windows.length - 1 : Nat) : ℚ) else 0

/-- `fn clamp_offset(&mut self)` (scroll.rs lines 62-72).  A rational is
always finite, so the `is_finite` reset never fires in the model. -/
def clamp_offset (s : ScrollLayoutState) : ScrollLayoutState :=
  let m := s.max_offset
  if m = 0 then { s with scroll_offset := 0 }
  else { s with scroll_offset := clampQ s.scroll_offset 0 m }

/-- `fn selected_index(&self) -> Option<usize>` (scroll.rs lines 74-77):
`let selected = self.selected?; self.windows.iter().position(|w| *w == selected)`. -/
def selected_index (s : ScrollLayoutState) : Option Nat :=
  s.selected.bind (fun sel => listPos s.windows sel)

/-- `fn ensure_widths(&mut self, default_ratio: f64)` (scroll.rs lines
123-138). -/
def ensure_widths (s : ScrollLayoutState) (default_r : ℚ) : ScrollLayoutState :=
  let fallback := max default_r MIN_WIDTH_UNITS
  let widths :=
    if s.widths.length ≠ s.windows.length then
      resizeList s.widths s.windows.length fallback
    else s.widths
  let widths := widths.map (fun w => if w < MIN_WIDTH_UNITS then fallback else w)
  let widths :=
    if widths.all (fun w => w ≤ 0) then widths.map (fun _ => fallback) else widths
  { s with widths := widths }

/-- `fn ensure_selection(&mut self, default_ratio: f64)` (scroll.rs lines
79-94). -/
def ensure_selection (s : ScrollLayoutState) (default_r : ℚ) : ScrollLayoutState :=
  let s := s.ensure_widths default_r
  if s.windows.isEmpty then
    { s with selected := none, scroll_offset := 0 }
  else
    let s :=
      if s.selected_index.isNone then
        { s with selected := some (s.windows.headI), scroll_offset := 0 }
      else s
    let s := s.clamp_offset
    { s with scroll_offset := clampQ s.scroll_offset 0 s.max_offset }

/-- `fn remove_window(&mut self, wid: WindowId, default_ratio: f64) -> bool`
(scroll.rs lines 96-121). -/
def remove_window (s : ScrollLayoutState) (wid : WindowId) (default_r : ℚ) :
    ScrollLayoutState × Bool :=
  match listPos s.windows wid with
  | none => (s, false)
  | some idx =>
    let s := { s with windows := s.windows.eraseIdx idx }
    let s :=
      if idx < s.widths.length then { s with widths := s.widths.eraseIdx idx }
      else s
    let s :=
      if s.windows.isEmpty then
        { s with selected := none, scroll_offset := 0 }
      else if s.selected = some wid then
        let new_idx := if s.windows.length ≤ idx then s.windows.length - 1 else idx
        { s with selected := some (s.windows.getD new_idx ⟨0, 0⟩),
                 scroll_offset := (new_idx : ℚ) }
      else
        match s.selected_index with
        | some sel_idx => { s with scroll_offset := (sel_idx : ℚ) }
        | none => s
    (s.ensure_widths default_r, true)

end ScrollLayoutState

/-- `f64 as usize` for the non-negative values cast in scroll.rs
(truncation toward zero, saturating at 0). -/
def ratToNat (q : ℚ) : Nat := (⌊q⌋).toNat

/-- `f64::EPSILON` = 2⁻⁵². -/
def EPSILON : ℚ := 1 / 2 ^ 52

/-- Direction of focus movement (`layout_engine::Direction`). -/
inductive Dir where
  | left
  | right
  | up
  | down
deriving DecidableEq, Repr

/-- `struct ScrollRuntimeConfig` (scroll.rs lines 141-146). -/
structure ScrollRuntimeConfig where
  default_window_r : ℚ
  center_bias : ℚ
  snap_threshold : ℚ
deriving DecidableEq, Repr

/-- `struct ScrollLayoutSettings` (config.rs): the three fields the scroll
system consumes. -/
structure ScrollLayoutSettings where
  window_fraction : ℚ
  center_bias : ℚ
  snap_threshold : ℚ
deriving DecidableEq, Repr

/-- `Default for ScrollLayoutSettings` (config.rs lines 576-588). -/
def ScrollLayoutSettings.default : ScrollLayoutSettings :=
  { window_fraction := 1, center_bias := 0, snap_threshold := 0.5 }

/-- `ScrollRuntimeConfig::from_settings` (scroll.rs lines 149-158). -/
def ScrollRuntimeConfig.from_settings (s : ScrollLayoutSettings) : ScrollRuntimeConfig :=
  { default_window_r := max s.window_fraction MIN_WIDTH_UNITS,
    center_bias := clampQ s.center_bias (-0.49) 0.49,
    snap_threshold := clampQ s.snap_threshold 0.05 0.95 }

namespace ScrollLayoutState

/-- Core of `ScrollLayoutSystem::scroll_by` (scroll.rs lines 192-223),
acting on a single layout state; returns the state together with the
newly selected window if the selection advanced. -/
def scroll_by (cfg : ScrollRuntimeConfig) (s : ScrollLayoutState) (delta : ℚ) :
    ScrollLayoutState × Option WindowId :=
  if s.windows.isEmpty then
    ({ s with selected := none, scroll_offset := 0 }, none)
  else
    let s := s.ensure_selection cfg.default_window_r
    let prev_index := s.selected_index.getD 0
    let s := { s with scroll_offset := clampQ (s.scroll_offset + delta) 0 s.max_offset }
    let base := clampQ (⌊s.scroll_offset⌋ : ℚ) 0 s.max_offset
    let frac := s.scroll_offset - base
    let target_idx := ratToNat base
    let target_idx :=
      if cfg.snap_threshold ≤ frac ∧ target_idx + 1 < s.windows.length then
        target_idx + 1
      else target_idx
    if target_idx ≠ prev_index then
      let wid := s.windows.getD target_idx ⟨0, 0⟩
      ({ s with selected := some wid, scroll_offset := (target_idx : ℚ) }, some wid)
    else (s, none)

/-- Core of `ScrollLayoutSystem::finalize_scroll` (scroll.rs lines
225-245) on a single layout state. -/
def finalize_scroll (cfg : ScrollRuntimeConfig) (s : ScrollLayoutState) :
    ScrollLayoutState × Option WindowId :=
  let s := s.ensure_selection cfg.default_window_r
  let s := { s with scroll_offset := clampQ s.scroll_offset 0 s.max_offset }
  let base := clampQ (⌊s.scroll_offset⌋ : ℚ) 0 s.max_offset
  let frac := s.scroll_offset - base
  let target_idx := ratToNat base
  let target_idx :=
    if cfg.snap_threshold ≤ frac ∧ target_idx + 1 < s.windows.length then
      target_idx + 1
    else target_idx
  match s.windows[target_idx]? with
  | some wid =>
    ({ s with scroll_offset := (target_idx : ℚ), selected := some wid }, some wid)
  | none => (s, none)

/-- `ScrollLayoutSystem::move_focus` (scroll.rs lines 406-439) on a single
layout state. -/
def move_focus (cfg : ScrollRuntimeConfig) (s : ScrollLayoutState) (d : Dir) :
    ScrollLayoutState × (Option WindowId × List WindowId) :=
  if s.windows.isEmpty then
    ({ s with selected := none, scroll_offset := 0 }, (none, []))
  else
    let s := s.ensure_selection cfg.default_window_r
    let current := s.selected_index.getD 0
    let target :=
      match d with
      | .left | .up => current - 1
      | .right | .down => min (current + 1) (s.windows.length - 1)
    if target = current then (s, (s.selected, []))
    else
      let wid := s.windows.getD target ⟨0, 0⟩
      ({ s with selected := some wid, scroll_offset := (target : ℚ) },
       (some wid, [wid]))

/-- `ScrollLayoutSystem::add_window_after_selection` (scroll.rs lines
441-451) on a single layout state. -/
def add_window_after_selection (cfg : ScrollRuntimeConfig) (s : ScrollLayoutState)
    (wid : WindowId) : ScrollLayoutState :=
  let insert_idx := (s.selected_index.map (· + 1)).getD s.windows.length
  let s := { s with windows := s.windows.insertIdx insert_idx wid,
                    widths := s.widths.insertIdx insert_idx cfg.default_window_r }
  let s := { s with selected := some wid,
                    scroll_offset := min (insert_idx : ℚ) s.max_offset }
  s.ensure_widths cfg.default_window_r

/-- The per-state body of the `LayoutSystem::remove_window` impl for the
scroll system (scroll.rs lines 453-465): the Rust code applies this to
every layout state in the slot map. -/
def remove_window_op (cfg : ScrollRuntimeConfig) (s : ScrollLayoutState)
    (wid : WindowId) : ScrollLayoutState :=
  let (s, removed) := s.remove_window wid cfg.default_window_r
  if removed then
    let s := s.ensure_selection cfg.default_window_r
    match s.selected_index with
    | some idx => { s with scroll_offset := (idx : ℚ) }
    | none => { s with scroll_offset := 0 }
  else s

/-- `ScrollLayoutSystem::select_window` (scroll.rs lines 570-585) on a
single layout state. -/
def select_window (s : ScrollLayoutState) (wid : WindowId) :
    ScrollLayoutState × Bool :=
  if (listPos s.windows wid).isNone then (s, false)
  else
    let s := { s with selected := some wid }
    let s :=
      match s.selected_index with
      | some idx => { s with scroll_offset := (idx : ℚ) }
      | none => { s with scroll_offset := clampQ s.scroll_offset 0 s.max_offset }
    (s, true)

/-- `ScrollLayoutSystem::swap_windows` (scroll.rs lines 627-647) on a
single layout state. -/
def swap_windows (s : ScrollLayoutState) (a b : WindowId) :
    ScrollLayoutState × Bool :=
  match listPos s.windows a, listPos s.windows b with
  | some a_idx, some b_idx =>
    let s := { s with windows := swapIdx s.windows a_idx b_idx }
    let s :=
      if a_idx < s.widths.length ∧ b_idx < s.widths.length then
        { s with widths := swapIdxQ s.widths a_idx b_idx }
      else s
    let s :=
      if s.selected = some a then { s with scroll_offset := (b_idx : ℚ) }
      else if s.selected = some b then { s with scroll_offset := (a_idx : ℚ) }
      else s
    (s, true)
  | _, _ => (s, false)

/-- `ScrollLayoutSystem::resize_selection_by` (scroll.rs lines 766-782) on
a single layout state. -/
def resize_selection_by (cfg : ScrollRuntimeConfig) (s : ScrollLayoutState)
    (amount : ℚ) : ScrollLayoutState :=
  if |amount| < EPSILON then s
  else if s.windows.isEmpty then s
  else
    let s := s.ensure_selection cfg.default_window_r
    match s.selected_index with
    | none => s
    | some idx =>
      let s := { s with
        widths := s.widths.set idx (max ((s.widths.getD idx 0) + amount) MIN_WIDTH_UNITS) }
      let s := s.ensure_widths cfg.default_window_r
      { s with scroll_offset := clampQ s.scroll_offset 0 s.max_offset }

/-- `ScrollLayoutSystem::rebalance` (scroll.rs lines 784-800) on a single
layout state. -/
def rebalance (cfg : ScrollRuntimeConfig) (s : ScrollLayoutState) :
    ScrollLayoutState :=
  if s.windows.isEmpty then s
  else
    let s := { s with
      widths := (resizeList s.widths s.windows.length cfg.default_window_r).map
        (fun _ => cfg.default_window_r) }
    let s := s.ensure_selection cfg.default_window_r
    match s.selected_index with
    | some idx => { s with scroll_offset := (idx : ℚ) }
    | none => { s with scroll_offset := 0 }

/-- `ScrollLayoutSystem::toggle_tile_orientation` (scroll.rs lines
736-744) on a single layout state. -/
def toggle_tile_orientation (s : ScrollLayoutState) : ScrollLayoutState :=
  let s := { s with direction := s.direction.toggle }
  match s.selected_index with
  | some idx => { s with scroll_offset := (idx : ℚ) }
  | none => { s with scroll_offset := clampQ s.scroll_offset 0 s.max_offset }

end ScrollLayoutState

namespace ScrollLayoutState

/-- `scroll_offset` equals the index of the selected window whenever a
selection exists (spec §4.2.3 / §8). -/
def selectionIndexOk (s : ScrollLayoutState) : Bool :=
  match s.selected with
  | none => true
  | some sel =>
    match listPos s.windows sel with
    | none => false
    | some i => s.scroll_offset == (i : ℚ)

/-- The committed-state invariant of claim C2: no duplicate windows,
`scroll_offset ∈ [0, max(0, |windows|-1)]`, and the offset equals the
selected window's index when a selection exists. -/
def committed (s : ScrollLayoutState) : Prop :=
  s.windows.Nodup ∧ 0 ≤ s.scroll_offset ∧ s.scroll_offset ≤ s.max_offset ∧
    selectionIndexOk s = true

instance (s : ScrollLayoutState) : Decidable s.committed := by
  unfold committed
  infer_instance

/-- The widths invariant of claim C8: one width entry per window, each at
least `MIN_WIDTH_UNITS`. -/
def widthsOk (s : ScrollLayoutState) : Prop :=
  s.widths.length = s.windows.length ∧ ∀ w ∈ s.widths, MIN_WIDTH_UNITS ≤ w

instance (s : ScrollLayoutState) : Decidable s.widthsOk := by
  unfold widthsOk
  infer_instance

end ScrollLayoutState

/-- Index transposition used to describe `swapIdx`. -/
def transp (i j k : Nat) : Nat := if k = j then i else if k = i then j else k

/-! ### The layout engine (engine.rs), with collaborators modelled from the
spec where their sources are not part of the core (virtual workspace
manager, floating manager). -/

/-- Association-list lookup (used to model slot maps and hash maps). -/
def getA {α β : Type} [DecidableEq α] : List (α × β) → α → Option β
  | [], _ => none
  | p :: ps, k => if p.1 = k then some p.2 else getA ps k

/-- Association-list update: replaces in place, appends when absent. -/
def putA {α β : Type} [DecidableEq α] (l : List (α × β)) (k : α) (v : β) :
    List (α × β) :=
  if (getA l k).isSome then
    l.map (fun p => if p.1 = k then (k, v) else p)
  else l ++ [(k, v)]

/-- `EventResponse` (engine.rs lines 84-89); `EventResponse::default()` has
no raises and no focus. -/
structure EventResponse where
  raise_windows : List WindowId := []
  focus_window : Option WindowId := none
deriving DecidableEq, Repr

/-- Modelled from the spec: per-space state of the virtual workspace
manager (spec §4.3: per display an ordered list of workspaces, each with a
set of member windows and a last-focused window). -/
structure SpaceWorkspaces where
  workspaces : List WorkspaceId
  active : Option WorkspaceId
  lastFocused : List (WorkspaceId × Option WindowId)
  assignments : List (WindowId × WorkspaceId)
deriving DecidableEq, Repr

/-- Modelled from the spec: the virtual workspace manager
(`model/virtual_workspace.rs`, not part of the four core sources).
`next_id` generates fresh workspace ids. -/
structure VirtualWorkspaceManager where
  spaces : List (SpaceId × SpaceWorkspaces)
  next_id : Nat
deriving DecidableEq, Repr

namespace VirtualWorkspaceManager

/-- Modelled from the spec: `list_workspaces` returns the ordered workspace
list of a space and guarantees it is nonempty, creating a default
workspace (made active) for a space seen for the first time — engine.rs
lines 1029-1039 rely on the returned list being nonempty. -/
def list_workspaces (v : VirtualWorkspaceManager) (space : SpaceId) :
    VirtualWorkspaceManager × List WorkspaceId :=
  match getA v.spaces space with
  | some sw =>
    if sw.workspaces = [] then
      let sw2 := { sw with
        workspaces := [v.next_id],
        active := some v.next_id }
      ({ spaces := putA v.spaces space sw2, next_id := v.next_id + 1 },
       sw2.workspaces)
    else (v, sw.workspaces)
  | none =>
    let sw2 : SpaceWorkspaces :=
      { workspaces := [v.next_id], active := some v.next_id,
        lastFocused := [], assignments := [] }
    ({ spaces := putA v.spaces space sw2, next_id := v.next_id + 1 },
     sw2.workspaces)

/-- Modelled from the spec: the active workspace of a space. -/
def active_workspace (v : VirtualWorkspaceManager) (space : SpaceId) :
    Option WorkspaceId :=
  (getA v.spaces space).bind (fun sw => sw.active)

/-- Modelled from the spec: make `ws` the active workspace of `space`. -/
def set_active_workspace (v : VirtualWorkspaceManager) (space : SpaceId)
    (ws : WorkspaceId) : VirtualWorkspaceManager :=
  match getA v.spaces space with
  | some sw => { v with spaces := putA v.spaces space { sw with active := some ws } }
  | none => v

/-- Modelled from the spec: the remembered focus of a workspace. -/
def last_focused_window (v : VirtualWorkspaceManager) (space : SpaceId)
    (ws : WorkspaceId) : Option WindowId :=
  ((getA v.spaces space).bind (fun sw => getA sw.lastFocused ws)).bind id

/-- Modelled from the spec: remember `wid` as the focus of a workspace. -/
def set_last_focused_window (v : VirtualWorkspaceManager) (space : SpaceId)
    (ws : WorkspaceId) (wid : Option WindowId) : VirtualWorkspaceManager :=
  match getA v.spaces space with
  | some sw =>
    { v with
        spaces := putA v.spaces space { sw with lastFocused := putA sw.lastFocused ws wid } }
  | none => v

/-- Modelled from the spec: which workspace a window is assigned to. -/
def workspace_for_window (v : VirtualWorkspaceManager) (space : SpaceId)
    (wid : WindowId) : Option WorkspaceId :=
  (getA v.spaces space).bind (fun sw => getA sw.assignments wid)

/-- Modelled from the spec: the members of the active workspace. -/
def windows_in_active_workspace (v : VirtualWorkspaceManager)
    (space : SpaceId) : List WindowId :=
  match getA v.spaces space with
  | some sw =>
    match sw.active with
    | some ws => (sw.assignments.filter (fun p => p.2 = ws)).map Prod.fst
    | none => []
  | none => []

/-- Modelled from the spec: assign a window to a workspace; reports whether
the assignment took place. -/
def assign_window_to_workspace (v : VirtualWorkspaceManager) (space : SpaceId)
    (wid : WindowId) (ws : WorkspaceId) : VirtualWorkspaceManager × Bool :=
  match getA v.spaces space with
  | some sw =>
    if ws ∈ sw.workspaces then
      ({ v with
          spaces := putA v.spaces space { sw with assignments := putA sw.assignments wid ws } },
       true)
    else (v, false)
  | none => (v, false)

end VirtualWorkspaceManager

/-- Modelled from the spec: the floating manager (spec §2: tracks which
windows are floating vs tiled, per-space active floating sets, last
floating focus). -/
structure FloatingManager where
  floating : List WindowId
  lastFocus : Option WindowId
  active : List (SpaceId × List WindowId)
deriving DecidableEq, Repr

namespace FloatingManager

/-- Modelled from the spec: whether a window is floating. -/
def is_floating (f : FloatingManager) (wid : WindowId) : Bool :=
  f.floating.contains wid

/-- Modelled from the spec: the flattened active floating set of a space. -/
def active_flat (f : FloatingManager) (space : SpaceId) : List WindowId :=
  (getA f.active space).getD []

/-- Modelled from the spec: remember the last floating focus. -/
def set_last_focus (f : FloatingManager) (wid : Option WindowId) :
    FloatingManager :=
  { f with lastFocus := wid }

/-- Modelled from the spec: rebuild a space's active floating set from the
windows of its (newly) active workspace. -/
def rebuild_active_for_workspace (f : FloatingManager) (space : SpaceId)
    (wins : List WindowId) : FloatingManager :=
  { f with active := putA f.active space (wins.filter (fun w => f.is_floating w)) }

end FloatingManager

/-- `WorkspaceLayouts`: the per-`(space, workspace)` active-layout table
(engine.rs field `workspace_layouts`; the table itself lives outside the
four core sources, but `active` and `ensure_active_for_space` are used as
a plain map here, per engine.rs lines 1047-1069). -/
structure WorkspaceLayouts where
  entries : List ((SpaceId × WorkspaceId) × LayoutId)
deriving DecidableEq, Repr

def WorkspaceLayouts.active (wl : WorkspaceLayouts) (space : SpaceId)
    (ws : WorkspaceId) : Option LayoutId :=
  getA wl.entries (space, ws)

/-- `LayoutSystemKind`: the tagged union of layout systems (spec §9).  The
traditional and BSP trees are outside the embedded core; they are carried
as opaque counters, which suffices for the claims about command routing. -/
inductive LayoutSystemKind where
  | scroll (layouts : List (LayoutId × ScrollLayoutState))
  | traditional (tree : Nat)
  | bsp (tree : Nat)
deriving DecidableEq, Repr

namespace LayoutSystemKind

/-- `create_layout`: fresh layout id plus default state (scroll.rs line
261); the opaque systems are modelled as bumping their counter. -/
def create_layout : LayoutSystemKind → LayoutSystemKind × LayoutId
  | .scroll layouts =>
    let lid := (layouts.map Prod.fst).foldr max 0 + 1
    (.scroll (putA layouts lid ScrollLayoutState.default), lid)
  | .traditional n => (.traditional (n + 1), n + 1)
  | .bsp n => (.bsp (n + 1), n + 1)

/-- `selected_window` (scroll.rs lines 388-390); modelled as `none` for the
opaque systems. -/
def selected_window (t : LayoutSystemKind) (lid : LayoutId) : Option WindowId :=
  match t with
  | .scroll layouts => (getA layouts lid).bind (fun st => st.selected)
  | _ => none

/-- `visible_windows_in_layout` (scroll.rs lines 392-396); modelled as `[]`
for the opaque systems. -/
def visible_windows_in_layout (t : LayoutSystemKind) (lid : LayoutId) :
    List WindowId :=
  match t with
  | .scroll layouts => ((getA layouts lid).map (fun st => st.windows)).getD []
  | _ => []

/-- `select_window` (scroll.rs lines 570-585); selection changes on the
opaque systems are not tracked. -/
def select_window (t : LayoutSystemKind) (lid : LayoutId) (wid : WindowId) :
    LayoutSystemKind × Bool :=
  match t with
  | .scroll layouts =>
    match getA layouts lid with
    | none => (t, false)
    | some st =>
      let (st2, r) := st.select_window wid
      (.scroll (putA layouts lid st2), r)
  | _ => (t, false)

end LayoutSystemKind

/-- `ScrollLayoutSystem::scroll_by` at the slot-map level (scroll.rs lines
192-223): a missing layout id leaves the map unchanged. -/
def sysScrollBy (cfg : ScrollRuntimeConfig)
    (layouts : List (LayoutId × ScrollLayoutState)) (lid : LayoutId)
    (delta : ℚ) : List (LayoutId × ScrollLayoutState) × Option WindowId :=
  match getA layouts lid with
  | none => (layouts, none)
  | some st =>
    let (st2, r) := st.scroll_by cfg delta
    (putA layouts lid st2, r)

/-- `ScrollLayoutSystem::finalize_scroll` at the slot-map level (scroll.rs
lines 225-245). -/
def sysFinalizeScroll (cfg : ScrollRuntimeConfig)
    (layouts : List (LayoutId × ScrollLayoutState)) (lid : LayoutId) :
    List (LayoutId × ScrollLayoutState) × Option WindowId :=
  match getA layouts lid with
  | none => (layouts, none)
  | some st =>
    let (st2, r) := st.finalize_scroll cfg
    (putA layouts lid st2, r)

/-- `struct LayoutEngine` (engine.rs lines 91-103).  The scroll system's
runtime settings are carried alongside the tree. -/
structure LayoutEngine where
  tree : LayoutSystemKind
  scroll_settings : ScrollRuntimeConfig
  workspace_layouts : WorkspaceLayouts
  floating : FloatingManager
  focused_window : Option WindowId
  virtual_workspace_manager : VirtualWorkspaceManager
deriving DecidableEq, Repr

namespace LayoutEngine

/-- `is_window_in_active_workspace` (engine.rs lines 1421-1435). -/
def is_window_in_active_workspace (e : LayoutEngine) (space : SpaceId)
    (wid : WindowId) : Bool :=
  match e.virtual_workspace_manager.active_workspace space with
  | none => true
  | some active_id =>
    match e.virtual_workspace_manager.workspace_for_window space wid with
    | some ws => ws = active_id
    | none => true

/-- `is_window_floating` (engine.rs lines 1320-1322). -/
def is_window_floating (e : LayoutEngine) (wid : WindowId) : Bool :=
  e.floating.is_floating wid

/-- `active_floating_windows_in_workspace` (engine.rs lines 117-123). -/
def active_floating_windows_in_workspace (e : LayoutEngine)
    (space : SpaceId) : List WindowId :=
  (e.floating.active_flat space).filter
    (fun wid => e.is_window_in_active_workspace space wid)

/-- `update_active_floating_windows` (engine.rs lines 1324-1328). -/
def update_active_floating_windows (e : LayoutEngine) (space : SpaceId) :
    LayoutEngine :=
  { e with
      floating := e.floating.rebuild_active_for_workspace space (e.virtual_workspace_manager.windows_in_active_workspace space) }

/-- `fn layout(&mut self, space) -> LayoutId` (engine.rs lines 1025-1071):
looks up the active layout for the space's active workspace, lazily
creating workspaces and layouts when absent. -/
def layoutFor (e : LayoutEngine) (space : SpaceId) : LayoutEngine × LayoutId :=
  let p : LayoutEngine × WorkspaceId :=
    match e.virtual_workspace_manager.active_workspace space with
    | some ws => (e, ws)
    | none =>
      let (v2, list) := e.virtual_workspace_manager.list_workspaces space
      ({ e with virtual_workspace_manager := v2 }, list.headI)
  let e := p.1
  let workspace_id := p.2
  match e.workspace_layouts.active space workspace_id with
  | some lid => (e, lid)
  | none =>
    let (v2, wss) := e.virtual_workspace_manager.list_workspaces space
    let step := wss.foldl
      (fun (acc : WorkspaceLayouts × LayoutSystemKind) ws =>
        match acc.1.active space ws with
        | some _ => acc
        | none =>
          let (tree2, lid) := acc.2.create_layout
          (⟨putA acc.1.entries (space, ws) lid⟩, tree2))
      (e.workspace_layouts, e.tree)
    let e := { e with
      virtual_workspace_manager := v2,
      workspace_layouts := step.1,
      tree := step.2 }
    (e, (e.workspace_layouts.active space workspace_id).getD 0)

/-- The `handle_command` path for `ScrollWorkspace { delta, finalize }`
(engine.rs lines 593-608, 651-671 and 715-743): the preamble resolves the
layout for the space, the dispatch requires an active workspace and an
active layout, and the arm drives the scroll system — or does nothing at
all when the current layout system is not the scroll system. -/
def handle_scroll_workspace (e : LayoutEngine) (spc : Option SpaceId)
    (delta : ℚ) (fin : Bool) : LayoutEngine × EventResponse :=
  let e :=
    match spc with
    | some space => (e.layoutFor space).1
    | none => e
  match spc with
  | none => (e, {})
  | some space =>
    match e.virtual_workspace_manager.active_workspace space with
    | none => (e, {})
    | some workspace_id =>
      match e.workspace_layouts.active space workspace_id with
      | none => (e, {})
      | some layout =>
        match e.tree with
        | .scroll layouts =>
          let p1 :=
            if EPSILON < |delta| then
              sysScrollBy e.scroll_settings layouts layout delta
            else (layouts, none)
          let p2 :=
            if fin then
              let f := sysFinalizeScroll e.scroll_settings p1.1 layout
              (f.1,
               if p1.2.isNone then
                 (LayoutSystemKind.scroll f.1).selected_window layout
               else p1.2)
            else p1
          let e := { e with tree := .scroll p2.1 }
          match p2.2 with
          | some wid =>
            ({ e with
                focused_window := some wid,
                virtual_workspace_manager := e.virtual_workspace_manager.set_last_focused_window space workspace_id (some wid) },
             { raise_windows := [wid], focus_window := some wid })
          | none => (e, {})
        | _ => (e, {})

/-- `refocus_workspace` (engine.rs lines 125-166). -/
def refocus_workspace (e : LayoutEngine) (space : SpaceId)
    (workspace_id : WorkspaceId) : LayoutEngine × EventResponse :=
  let f1 := e.virtual_workspace_manager.last_focused_window space workspace_id
  let f2 :=
    if f1.isNone then
      match e.workspace_layouts.active space workspace_id with
      | some layout =>
        (e.tree.selected_window layout).orElse
          (fun _ => (e.tree.visible_windows_in_layout layout).head?)
      | none => none
    else f1
  let f3 :=
    if f2.isNone then
      let floating_windows := e.active_floating_windows_in_workspace space
      let floating_focus :=
        e.floating.lastFocus.filter (fun wid => floating_windows.contains wid)
      floating_focus.orElse (fun _ => floating_windows.head?)
    else f2
  match f3 with
  | some wid =>
    let e := { e with
      focused_window := some wid,
      virtual_workspace_manager := e.virtual_workspace_manager.set_last_focused_window space workspace_id (some wid) }
    let e :=
      if e.floating.is_floating wid then
        { e with floating := e.floating.set_last_focus (some wid) }
      else
        match e.workspace_layouts.active space workspace_id with
        | some layout => { e with tree := (e.tree.select_window layout wid).1 }
        | none => e
    (e, { focus_window := some wid, raise_windows := [] })
  | none =>
    ({ e with
       focused_window := none,
       virtual_workspace_manager := e.virtual_workspace_manager.set_last_focused_window space workspace_id none },
     { focus_window := none, raise_windows := [] })

/-- The `handle_virtual_workspace_command` arm for `SwitchToWorkspace(i)`
(engine.rs lines 1143-1161).  The two broadcasts (lines 1155-1156) only
send on an external channel and touch no engine state. -/
def switch_to_workspace (e : LayoutEngine) (space : SpaceId) (i : Nat) :
    LayoutEngine × EventResponse :=
  let (v2, workspaces) := e.virtual_workspace_manager.list_workspaces space
  let e := { e with virtual_workspace_manager := v2 }
  match workspaces[i]? with
  | none => (e, {})
  | some workspace_id =>
    if e.virtual_workspace_manager.active_workspace space = some workspace_id
    then (e, {})
    else
      let e := { e with virtual_workspace_manager :=
        e.virtual_workspace_manager.set_active_workspace space workspace_id }
      let e := e.update_active_floating_windows space
      e.refocus_workspace space workspace_id

end LayoutEngine

/-! ### Concrete fixtures used by the scenario claims -/

/-- Windows used by the concrete examples. -/
def exW0 : WindowId := ⟨1, 0⟩

def exW1 : WindowId := ⟨1, 1⟩

def exW2 : WindowId := ⟨1, 2⟩

/-- Runtime scroll settings with the default `snap_threshold = 0.5`
(config.rs `ScrollLayoutSettings::default`). -/
def exCfg : ScrollRuntimeConfig :=
  { default_window_r := 1, center_bias := 0, snap_threshold := 1/2 }

/-- A three-window scroll strip with the selection at index 0. -/
def exStrip3 : ScrollLayoutState :=
  { windows := [exW0, exW1, exW2], selected := some exW0,
    widths := [1, 1, 1], scroll_offset := 0, direction := .forward }

/-- A two-window scroll strip with the selection at index 1. -/
def exStrip2 : ScrollLayoutState :=
  { windows := [exW0, exW1], selected := some exW1,
    widths := [1, 1], scroll_offset := 1, direction := .forward }

/-- An engine in scroll mode showing `strip` as layout 1 of workspace 5 on
space 0. -/
def exEngine (strip : ScrollLayoutState) : LayoutEngine :=
  { tree := .scroll [(1, strip)], scroll_settings := exCfg,
    workspace_layouts := ⟨[((0, 5), 1)]⟩,
    floating := { floating := [], lastFocus := none, active := [] },
    focused_window := strip.selected,
    virtual_workspace_manager :=
      { spaces := [(0, { workspaces := [5], active := some 5,
                         lastFocused := [], assignments := [] })],
        next_id := 6 } }

/-! ### The reactor (reactor.rs): state and effects model.

Engine interactions, layout events and bookkeeping calls are recorded as
explicit effects; collaborators outside the core sources (the window
transaction store type, the drag manager's overlap geometry, the
window-server and system-geometry helpers, the engine's layout-event
handler) are modelled from the spec or passed in as oracles. -/

/-- `TransactionId` (reactor.rs lines 327-331): a per-window counter. -/
abbrev TxId := Nat

/-- Modelled from the spec: one entry of the window transaction store
(spec §4.1.1; the store type lives in the window-notify actor, outside the
core sources): the transaction id of the last write and its target
frame. -/
structure TxRecord where
  txid : TxId
  target : Frame
deriving DecidableEq, Repr

/-- `WindowState` (reactor.rs lines 333-353), restricted to the fields the
claims touch. -/
structure WindowState where
  frame_monotonic : Frame
  last_sent_txid : TxId
  window_server_id : Option Nat
deriving DecidableEq, Repr

/-- Modelled from the spec: `same_as` (system geometry, not a core source)
compares frames for equality up to a sub-pixel tolerance; over exact
rationals this is exact equality. -/
def Frame.same_as (a b : Frame) : Bool := a == b

/-- Modelled from the spec: the centre abscissa of a frame (system
geometry is not a core source). -/
def Frame.midx (f : Frame) : ℚ := f.x + f.w / 2

/-- Modelled from the spec: the centre ordinate of a frame. -/
def Frame.midy (f : Frame) : ℚ := f.y + f.h / 2

/-- Modelled from the spec: point containment for frames. -/
def Frame.containsPt (f : Frame) (px py : ℚ) : Bool :=
  decide (f.x ≤ px ∧ px ≤ f.x + f.w ∧ f.y ≤ py ∧ py ≤ f.y + f.h)

/-- Modelled from the spec: frame intersection. -/
def Frame.intersection (a b : Frame) : Frame :=
  let x1 := max a.x b.x
  let y1 := max a.y b.y
  let x2 := min (a.x + a.w) (b.x + b.w)
  let y2 := min (a.y + a.h) (b.y + b.h)
  { x := x1, y := y1, w := max 0 (x2 - x1), h := max 0 (y2 - y1) }

/-- Modelled from the spec: frame area. -/
def Frame.area (f : Frame) : ℚ := f.w * f.h

/-- A screen: its frame and the space it currently shows (reactor.rs
`Screen`). -/
structure Screen where
  frame : Frame
  space : Option SpaceId
deriving DecidableEq, Repr

/-- Window-server info entries are opaque to the claims. -/
abbrev WindowServerInfo := Nat

/-- `PendingSpaceChange` (reactor.rs): a stashed `SpaceChanged` payload. -/
structure PendingSpaceChange where
  spaces : List (Option SpaceId)
  ws_info : List WindowServerInfo
deriving DecidableEq, Repr

/-- `DragSession` (reactor.rs). -/
structure DragSession where
  window : WindowId
  last_frame : Frame
  origin_space : Option SpaceId
  settled_space : Option SpaceId
  layout_dirty : Bool
deriving DecidableEq, Repr

/-- Mouse button state attached to frame events. -/
inductive MouseState where
  | down
  | up
deriving DecidableEq, Repr

/-- Layout events the reactor sends to the engine. -/
inductive LayoutEventM where
  | windowAdded (space : SpaceId) (wid : WindowId)
  | windowRemoved (wid : WindowId)
  | windowResized (wid : WindowId)
  | windowFocused (space : SpaceId) (wid : WindowId)
  | spaceExposed (space : SpaceId)
deriving DecidableEq, Repr

/-- Layout commands the reactor issues to the engine (the ones the claims
mention). -/
inductive EngineCommandM where
  | swapWindows (a b : WindowId)
deriving DecidableEq, Repr

/-- Observable side effects of one reactor step. -/
inductive EffectM where
  | layoutEvent (ev : LayoutEventM)
  | layoutResponse (resp : EventResponse)
  | engineCommand (cmd : EngineCommandM)
  | updateLayout
  | windowServerRefresh
  | checkNewWindows
  | appRefreshRequest (pid : Int)
  | wmAppThreadTerminated (pid : Int)
  | broadcastWorkspaceChanged (space : SpaceId) (ws : WorkspaceId)
  | focusFollowsMouseUpdate
  | menuUpdate
deriving DecidableEq, Repr

/-- Modelled from the spec: the drag manager's observable state — the
origin frame of the current drag gesture and the current overlap target
(its geometry lives outside the core sources). -/
structure DragManagerState where
  originFrame : Option Frame
  lastTarget : Option WindowId
deriving DecidableEq, Repr

/-- The reactor state (reactor.rs `struct Reactor`), restricted to the
fields the claims touch.  `main_window` stands in for the main-window
tracker, whose sources are not part of the core. -/
structure Reactor where
  windows : List (WindowId × WindowState)
  apps : List Int
  screens : List Screen
  mission_control_active : Bool
  changing_screens : List Nat
  window_tx_store : Option (List (Nat × TxRecord))
  pending_space_change : Option PendingSpaceChange
  in_drag : Bool
  active_drag : Option DragSession
  pending_drag_swap : Option (WindowId × WindowId)
  skip_layout_for_window : Option WindowId
  suppress_stale_window_cleanup : Bool
  pending_refocus_space : Option SpaceId
  fullscreen_by_space : List (Nat × List Int)
  pending_mission_control_refresh : List Int
  layout_engine : LayoutEngine
  dm : DragManagerState
  main_window : Option (SpaceId × WindowId)
deriving DecidableEq, Repr

/-- Oracles for collaborators whose behaviour the claims do not constrain:
the engine's layout-event handler (`LayoutEngine::handle_event` fans out
into workspace-manager code outside the embedded fragment), the drag
manager's overlap detection, and the window-server fullscreen query. -/
structure ReactorOracles where
  engineEvent : LayoutEngine → LayoutEventM → LayoutEngine × EventResponse
  dmStep : DragManagerState → WindowId → Frame → List (WindowId × Frame) →
    DragManagerState × Option WindowId
  spaceIsFullscreen : SpaceId → Bool

/-- Association-list removal (store `remove`, map `remove`). -/
def eraseA {α β : Type} [DecidableEq α] (l : List (α × β)) (k : α) :
    List (α × β) :=
  l.filter (fun p => p.1 != k)

/-- `Iterator::max_by_key` (returns the last maximal element). -/
def maxByKeyLast {α : Type} (key : α → ℤ) : List α → Option α
  | [] => none
  | x :: xs =>
    match maxByKeyLast key xs with
    | none => some x
    | some y => if key y < key x then some x else some y

/-- `sys` swap at the slot-map level (scroll.rs lines 627-647). -/
def sysSwapWindows (layouts : List (LayoutId × ScrollLayoutState))
    (lid : LayoutId) (a b : WindowId) : List (LayoutId × ScrollLayoutState) :=
  match getA layouts lid with
  | none => layouts
  | some st => putA layouts lid (st.swap_windows a b).1

namespace LayoutEngine

/-- The `handle_command` path for `SwapWindows(a, b)` (engine.rs lines
593-608, 651-671 and 709-714).  The swap on the opaque traditional/BSP
trees is not tracked. -/
def handle_swap_windows (e : LayoutEngine) (spc : Option SpaceId)
    (a b : WindowId) : LayoutEngine × EventResponse :=
  let e :=
    match spc with
    | some space => (e.layoutFor space).1
    | none => e
  match spc with
  | none => (e, {})
  | some space =>
    match e.virtual_workspace_manager.active_workspace space with
    | none => (e, {})
    | some workspace_id =>
      match e.workspace_layouts.active space workspace_id with
      | none => (e, {})
      | some _ =>
        let p := e.layoutFor space
        let e := p.1
        let lid := p.2
        match e.tree with
        | .scroll layouts =>
          ({ e with tree := .scroll (sysSwapWindows layouts lid a b) }, {})
        | _ => (e, {})

end LayoutEngine

namespace Reactor

/-- `send_layout_event` (reactor.rs lines 2065-2073): forwards the event to
the engine and handles the response (the response handling itself only
touches focus bookkeeping and is recorded as an effect). -/
def send_layout_event (r : Reactor) (o : ReactorOracles) (ev : LayoutEventM) :
    Reactor × List EffectM :=
  let p := o.engineEvent r.layout_engine ev
  ({ r with layout_engine := p.1 },
   [.layoutEvent ev, .layoutResponse p.2])

/-- `best_space_for_window` (reactor.rs lines 1869-1887). -/
def best_space_for_window (r : Reactor) (frame : Frame) : Option SpaceId :=
  (r.screens.findSome? (fun s =>
      s.space.bind (fun space =>
        if s.frame.containsPt frame.midx frame.midy then some space
        else none))).orElse
    (fun _ =>
      (maxByKeyLast (fun s => ⌊(s.frame.intersection frame).area⌋)
          r.screens).bind (fun s => s.space))

/-- `drag_space_candidate` (reactor.rs lines 1936-1946). -/
def drag_space_candidate (r : Reactor) (frame : Frame) : Option SpaceId :=
  r.screens.findSome? (fun s =>
    s.space.bind (fun space =>
      if s.frame.containsPt frame.midx frame.midy then some space else none))

/-- `resolve_drag_space` (reactor.rs lines 1948-1956). -/
def resolve_drag_space (r : Reactor) (session : DragSession) (frame : Frame) :
    Option SpaceId :=
  if frame.area ≤ 0 then
    session.settled_space.orElse (fun _ => r.best_space_for_window frame)
  else
    ((r.drag_space_candidate frame).orElse
      (fun _ => r.best_space_for_window frame)).orElse
      (fun _ => session.settled_space)

/-- `ensure_active_drag` (reactor.rs lines 1889-1905). -/
def ensure_active_drag (r : Reactor) (wid : WindowId) (frame : Frame) :
    Reactor :=
  let needs_new :=
    match r.active_drag with
    | some session => session.window != wid
    | none => true
  let r :=
    if needs_new then
      let origin_space := r.best_space_for_window frame
      { r with
          active_drag := some { window := wid, last_frame := frame, origin_space := origin_space, settled_space := origin_space, layout_dirty := false } }
    else r
  if r.skip_layout_for_window ≠ some wid then
    { r with skip_layout_for_window := some wid }
  else r

/-- `update_active_drag` (reactor.rs lines 1907-1925). -/
def update_active_drag (r : Reactor) (wid : WindowId) (new_frame : Frame) :
    Reactor :=
  match r.active_drag with
  | none => r
  | some session =>
    if session.window = wid then
      let resolved := r.resolve_drag_space session new_frame
      let session2 := { session with last_frame := new_frame }
      if session2.settled_space ≠ resolved then
        { r with
            active_drag := some { session2 with
              settled_space := resolved, layout_dirty := true },
            skip_layout_for_window := some wid }
      else { r with active_drag := some session2 }
    else r

/-- `mark_drag_dirty` (reactor.rs lines 1927-1934). -/
def mark_drag_dirty (r : Reactor) (wid : WindowId) : Reactor :=
  match r.active_drag with
  | none => r
  | some session =>
    if session.window = wid then
      { r with active_drag := some { session with layout_dirty := true },
               skip_layout_for_window := some wid }
    else r

/-- The branch body of `maybe_swap_on_drag` after the space checks
(reactor.rs lines 2523-2581). -/
def maybe_swap_core (r : Reactor) (o : ReactorOracles) (wid : WindowId)
    (new_frame : Frame) (space : SpaceId) : Reactor :=
  if ¬ r.layout_engine.is_window_in_active_workspace space wid then r
  else
    let candidates :=
      (r.windows.filter (fun p =>
        p.1 != wid &&
        (r.best_space_for_window p.2.frame_monotonic == some space) &&
        r.layout_engine.is_window_in_active_workspace space p.1 &&
        !(r.layout_engine.is_window_floating p.1))).map
        (fun p => (p.1, p.2.frame_monotonic))
    let previous_pending := r.pending_drag_swap
    let p := o.dmStep r.dm wid new_frame candidates
    let r := { r with dm := p.1 }
    match r.dm.lastTarget with
    | some target_wid =>
      { r with pending_drag_swap := some (wid, target_wid),
               skip_layout_for_window := some wid }
    | none =>
      let r :=
        match previous_pending with
        | some (pw, _) =>
          if pw = wid then { r with pending_drag_swap := none } else r
        | none => r
      if r.skip_layout_for_window = some wid then
        { r with skip_layout_for_window := none }
      else r

/-- `maybe_swap_on_drag` (reactor.rs lines 2459-2581): detects an overlap
target during a drag and only records it; the tree swap is deferred to
`MouseUp`. -/
def maybe_swap_on_drag (r : Reactor) (o : ReactorOracles) (wid : WindowId)
    (new_frame : Frame) : Reactor :=
  if ¬ r.in_drag then r
  else
    match getA r.windows wid with
    | none => r
    | some window =>
      if (window.window_server_id.map
          (fun wsid => r.changing_screens.contains wsid)).getD false then r
      else
        match
          (if r.in_drag then
            ((r.active_drag.bind (fun s => s.settled_space)).orElse
              (fun _ => r.best_space_for_window new_frame))
          else r.best_space_for_window new_frame) with
        | none => r
        | some space =>
          let origin_space_hint :=
            (r.active_drag.bind (fun s => s.origin_space)).orElse
              (fun _ => r.dm.originFrame.bind
                (fun f => r.best_space_for_window f))
          match origin_space_hint with
          | some origin_space =>
            if origin_space ≠ space then
              let r :=
                match r.pending_drag_swap with
                | some (pw, _) =>
                  if pw = wid then { r with pending_drag_swap := none } else r
                | none => r
              { r with dm := { originFrame := none, lastTarget := none } }
            else r.maybe_swap_core o wid new_frame space
          | none => r.maybe_swap_core o wid new_frame space

/-- `finalize_active_drag` (reactor.rs lines 1958-1991): returns whether a
layout pass is needed. -/
def finalize_active_drag (r : Reactor) (o : ReactorOracles) :
    Reactor × List EffectM × Bool :=
  match r.active_drag with
  | none => (r, [], false)
  | some session =>
    let r := { r with active_drag := none }
    let wid := session.window
    let final_space := (getA r.windows wid).bind
      (fun w => r.best_space_for_window w.frame_monotonic)
    if session.origin_space ≠ final_space then
      let p1 :=
        if session.origin_space.isSome then
          r.send_layout_event o (.windowRemoved wid)
        else (r, [])
      let r := p1.1
      let p2 :=
        match final_space with
        | some space =>
          let r :=
            match r.layout_engine.virtual_workspace_manager.active_workspace
                space with
            | some active_ws =>
              { r with layout_engine := { r.layout_engine with
                  virtual_workspace_manager :=
                    (r.layout_engine.virtual_workspace_manager.assign_window_to_workspace
                      space wid active_ws).1 } }
            | none => r
          r.send_layout_event o (.windowAdded space wid)
        | none => (r, [])
      ({ p2.1 with skip_layout_for_window := some wid }, p1.2 ++ p2.2, true)
    else if session.layout_dirty then
      ({ r with skip_layout_for_window := some wid }, [], true)
    else (r, [], false)

/-- The `MouseUp` arm (reactor.rs lines 1128-1184).  The generic
`handle_event` epilogue (line 1373) is outside the cited arm and not part
of this step. -/
def handle_mouse_up (r : Reactor) (o : ReactorOracles) :
    Reactor × List EffectM :=
  let r := { r with in_drag := false }
  let p1 : Reactor × List EffectM × Bool :=
    match r.pending_drag_swap with
    | some (dragged, target) =>
      let r := { r with pending_drag_swap := none, skip_layout_for_window := some dragged }
      if (getA r.windows dragged).isSome ∧ (getA r.windows target).isSome then
        let swap_space :=
          (((getA r.windows dragged).bind
              (fun w => r.best_space_for_window w.frame_monotonic)).orElse
            (fun _ => r.dm.originFrame.bind
              (fun f => r.best_space_for_window f))).orElse
            (fun _ => r.screens.findSome? (fun s => s.space))
        let q := r.layout_engine.handle_swap_windows swap_space dragged target
        ({ r with layout_engine := q.1 },
         [.engineCommand (.swapWindows dragged target), .layoutResponse q.2],
         true)
      else (r, [], false)
    | none => (r, [], false)
  let r := p1.1
  let p2 := r.finalize_active_drag o
  let r := { p2.1 with dm := { originFrame := none, lastTarget := none } }
  let need : Bool := p1.2.2 || p2.2.2
  ({ r with skip_layout_for_window := none },
   p1.2.1 ++ p2.2.1 ++ (if need then [EffectM.updateLayout] else []))

/-- The `WindowFrameChanged` arm (reactor.rs lines 922-1055).  All of the
claim-relevant paths end in a `return` in the source, so the generic
`handle_event` epilogue does not run for them. -/
def handle_window_frame_changed (r : Reactor) (o : ReactorOracles)
    (wid : WindowId) (new_frame : Frame) (last_seen : Option TxId)
    (requested : Bool) (mouse_state : Option MouseState) :
    Reactor × List EffectM :=
  match getA r.windows wid with
  | none => (r, [])
  | some window =>
    if r.mission_control_active ∨
        ((window.window_server_id.map
          (fun wsid => r.changing_screens.contains wsid)).getD false) then
      (r, [])
    else
      let triggered_by_rift :=
        (last_seen.map (fun seen => seen == window.last_sent_txid)).getD false
      if (last_seen.map (fun seen => seen != window.last_sent_txid)).getD false
      then (r, [])
      else if requested then (r, [])
      else if triggered_by_rift then
        match r.window_tx_store, window.window_server_id with
        | some store, some wsid =>
          (match getA store wsid with
           | some record =>
             if new_frame.same_as record.target then
               let r :=
                 if ¬(window.frame_monotonic.same_as new_frame) then
                   { r with
                       windows := putA r.windows wid { window with frame_monotonic := new_frame } }
                 else r
               ({ r with window_tx_store := some (eraseA store wsid) }, [])
             else (r, [])
           | none =>
             if ¬(window.frame_monotonic.same_as new_frame) then
               ({ r with
                   windows := putA r.windows wid { window with frame_monotonic := new_frame } }, [])
             else (r, []))
        | _, _ =>
          if ¬(window.frame_monotonic.same_as new_frame) then
            ({ r with
                windows := putA r.windows wid { window with frame_monotonic := new_frame } }, [])
          else (r, [])
      else
        let old_frame := window.frame_monotonic
        let r := { r with
            windows := putA r.windows wid { window with frame_monotonic := new_frame } }
        if old_frame = new_frame then (r, [])
        else
          let dragging := mouse_state = some .down ∨ r.in_drag
          if dragging then
            let r := if ¬ r.in_drag then { r with in_drag := true } else r
            let r := r.ensure_active_drag wid old_frame
            let r := r.update_active_drag wid new_frame
            let r :=
              if old_frame.w ≠ new_frame.w ∨ old_frame.h ≠ new_frame.h then
                r.mark_drag_dirty wid
              else r
            (r.maybe_swap_on_drag o wid new_frame, [])
          else
            let old_space := r.best_space_for_window old_frame
            let new_space := r.best_space_for_window new_frame
            if old_space ≠ new_space then
              if r.in_drag ∨
                  ((r.active_drag.map (fun s => s.window == wid)).getD false)
              then
                match new_space, r.active_drag with
                | some space, some session =>
                  if session.window = wid then
                    ({ r with active_drag := some { session with
                        settled_space := some space, layout_dirty := true } },
                     [])
                  else (r, [])
                | _, _ => (r, [])
              else
                match new_space with
                | some space =>
                  let r :=
                    match r.layout_engine.virtual_workspace_manager.active_workspace
                        space with
                    | some active_ws =>
                      { r with layout_engine := { r.layout_engine with
                          virtual_workspace_manager :=
                            (r.layout_engine.virtual_workspace_manager.assign_window_to_workspace
                              space wid active_ws).1 } }
                    | none => r
                  let q := r.send_layout_event o (.windowAdded space wid)
                  (q.1, q.2 ++ [.updateLayout])
                | none =>
                  let q := r.send_layout_event o (.windowRemoved wid)
                  (q.1, q.2 ++ [.updateLayout])
            else
              if old_frame.w ≠ new_frame.w ∨ old_frame.h ≠ new_frame.h then
                r.send_layout_event o (.windowResized wid)
              else (r, [])

/-- `set_screen_spaces` (reactor.rs lines 1512-1516). -/
def set_screen_spaces (r : Reactor) (spaces : List (Option SpaceId)) :
    Reactor :=
  { r with screens :=
      List.zipWith (fun (sp : Option SpaceId) (sc : Screen) =>
        { sc with space := sp }) spaces r.screens
      ++ r.screens.drop spaces.length }

/-- The step function of `expose_all_spaces`. -/
def exposeStep (o : ReactorOracles) (acc : Reactor × List EffectM)
    (screen : Screen) : Reactor × List EffectM :=
  match screen.space with
  | none => acc
  | some space =>
    let r := acc.1
    let r := { r with layout_engine := { r.layout_engine with
        virtual_workspace_manager :=
          (r.layout_engine.virtual_workspace_manager.list_workspaces space).1 } }
    let q := r.send_layout_event o (.spaceExposed space)
    (q.1, acc.2 ++ q.2)

/-- `expose_all_spaces` (reactor.rs lines 2013-2020). -/
def expose_all_spaces (r : Reactor) (o : ReactorOracles) :
    Reactor × List EffectM :=
  r.screens.foldl (exposeStep o) (r, [])

/-- `finalize_space_change` (reactor.rs lines 1518-1548). -/
def finalize_space_change (r : Reactor) (o : ReactorOracles)
    (spaces : List (Option SpaceId)) (_ws_info : List WindowServerInfo) :
    Reactor × List EffectM :=
  let r := { r with
      suppress_stale_window_cleanup := spaces.all (fun s => s.isNone) }
  let p1 := r.expose_all_spaces o
  let r := { p1.1 with changing_screens := [] }
  let p2 :=
    match r.main_window with
    | some (space, wid) => r.send_layout_event o (.windowFocused space wid)
    | none => (r, [])
  let r := p2.1
  let broadcastEffs : List EffectM :=
    match spaces.findSome? id with
    | some space =>
      match r.layout_engine.virtual_workspace_manager.active_workspace space with
      | some ws => [.broadcastWorkspaceChanged space ws]
      | none => []
    | none => []
  (r, p1.2 ++ p2.2 ++ [.windowServerRefresh, .checkNewWindows]
    ++ broadcastEffs)

/-- `handle_fullscreen_space_transition` (reactor.rs lines 1467-1510).
Returns the reactor, the emitted effects, the early-return flag, and the
(possibly rewritten) space list. -/
def handle_fullscreen_space_transition (r : Reactor) (o : ReactorOracles)
    (spaces : List (Option SpaceId)) :
    Reactor × List EffectM × Bool × List (Option SpaceId) :=
  let saw_fullscreen :=
    spaces.any (fun s => (s.map o.spaceIsFullscreen).getD false)
  let all_fullscreen :=
    (!spaces.isEmpty) && spaces.all (fun s => (s.map o.spaceIsFullscreen).getD false)
  let spaces2 := spaces.map (fun s =>
    match s with
    | some sp => if o.spaceIsFullscreen sp then none else some sp
    | none => none)
  let refresh_spaces := spaces.filterMap (fun s =>
    s.bind (fun sp => if o.spaceIsFullscreen sp then none else some sp))
  if saw_fullscreen && all_fullscreen then (r, [], true, spaces2)
  else
    let step := refresh_spaces.foldl
      (fun (acc : Reactor × List EffectM) sp =>
        let r := acc.1
        match getA r.fullscreen_by_space sp with
        | none => acc
        | some track =>
          let r := { r with
              fullscreen_by_space := eraseA r.fullscreen_by_space sp }
          let reqs := (track.filter (fun pid => r.apps.contains pid)).map
            (fun pid => EffectM.appRefreshRequest pid)
          let p :=
            match r.screens.findSome? (fun s => s.space) with
            | some space =>
              ({ r with pending_refocus_space := some space },
               [EffectM.updateLayout, EffectM.focusFollowsMouseUpdate])
            | none => (r, [])
          (p.1, acc.2 ++ reqs ++ p.2))
      (r, [])
    (step.1, step.2, false, spaces2)

/-- The `SpaceChanged` arm (reactor.rs lines 1102-1127). -/
def handle_space_changed (r : Reactor) (o : ReactorOracles)
    (spaces : List (Option SpaceId)) (ws_info : List WindowServerInfo) :
    Reactor × List EffectM :=
  let p := r.handle_fullscreen_space_transition o spaces
  if p.2.2.1 then (p.1, p.2.1)
  else
    let r := p.1
    let spaces := p.2.2.2
    if r.mission_control_active then
      ({ r with
          pending_space_change := some { spaces := spaces, ws_info := ws_info } }, p.2.1)
    else
      let r := { r with
          suppress_stale_window_cleanup := spaces.all (fun s => s.isNone) }
      if spaces.length ≠ r.screens.length then
        ({ r with
            pending_space_change := some { spaces := spaces, ws_info := ws_info } }, p.2.1)
      else
        let r := { r with pending_space_change := none }
        let r := r.set_screen_spaces spaces
        let q := r.finalize_space_change o spaces ws_info
        (q.1, p.2.1 ++ q.2)

/-- `try_apply_pending_space_change` (reactor.rs lines 1550-1562): the only
place a stashed space change is committed; it is called only from the
`ScreenParametersChanged` arm (reactor.rs line 1100). -/
def try_apply_pending_space_change (r : Reactor) (o : ReactorOracles) :
    Reactor × List EffectM :=
  match r.pending_space_change with
  | none => (r, [])
  | some pending =>
    let r := { r with pending_space_change := none }
    if pending.spaces.length = r.screens.length then
      let p := r.handle_fullscreen_space_transition o pending.spaces
      if p.2.2.1 then (p.1, p.2.1)
      else
        let r := p.1.set_screen_spaces p.2.2.2
        let q := r.finalize_space_change o p.2.2.2 pending.ws_info
        (q.1, p.2.1 ++ q.2)
    else ({ r with pending_space_change := some pending }, [])

/-- The `ScreenParametersChanged` arm (reactor.rs lines 1057-1100). -/
def handle_screen_parameters_changed (r : Reactor) (o : ReactorOracles)
    (frames : List Frame) (spaces : List (Option SpaceId))
    (ws_info : List WindowServerInfo) : Reactor × List EffectM :=
  let r := { r with
      suppress_stale_window_cleanup := spaces.all (fun s => s.isNone) }
  let p1 : Reactor × List EffectM × Bool :=
    if frames.isEmpty then
      if spaces.isEmpty then
        if ¬ r.screens.isEmpty then
          let r := { r with screens := [] }
          let q := r.expose_all_spaces o
          (q.1, q.2, false)
        else (r, [], false)
      else if spaces.length = r.screens.length then
        let r := r.set_screen_spaces spaces
        let q := r.finalize_space_change o spaces ws_info
        (q.1, q.2, true)
      else (r, [], false)
    else if frames.length ≠ spaces.length then (r, [], false)
    else
      let r := { r with
          screens := List.zipWith (fun f sp => ({ frame := f, space := sp } : Screen)) frames spaces }
      let q := r.finalize_space_change o spaces ws_info
      (q.1, q.2, true)
  let r := p1.1
  let p2 : Reactor × List EffectM :=
    if p1.2.2 then (r, []) else (r, [EffectM.windowServerRefresh])
  let p3 := p2.1.try_apply_pending_space_change o
  (p3.1, p1.2.1 ++ p2.2 ++ p3.2)

/-- `set_mission_control_active` (reactor.rs lines 2696-2702). -/
def set_mission_control_active (r : Reactor) (active : Bool) :
    Reactor × List EffectM :=
  if r.mission_control_active = active then (r, [])
  else ({ r with mission_control_active := active },
        [.focusFollowsMouseUpdate])

/-- `refresh_windows_after_mission_control` (reactor.rs lines 2704-2713).
Note that it never touches `pending_space_change`. -/
def refresh_windows_after_mission_control (r : Reactor) :
    Reactor × List EffectM :=
  let r := { r with pending_mission_control_refresh := r.apps }
  (r, [EffectM.windowServerRefresh]
    ++ r.apps.map (fun pid => EffectM.appRefreshRequest pid)
    ++ [EffectM.checkNewWindows, EffectM.updateLayout, EffectM.menuUpdate])

/-- The `MissionControlNativeExited` arm (reactor.rs lines 1216-1219). -/
def handle_mission_control_exited (r : Reactor) : Reactor × List EffectM :=
  let p1 :=
    if r.mission_control_active then r.set_mission_control_active false
    else (r, [])
  let p2 := p1.1.refresh_windows_after_mission_control
  (p2.1, p1.2 ++ p2.2)

/-- The `ApplicationThreadTerminated` arm (reactor.rs lines 588-603): only
the stored app handle is dropped and the WM controller notified; no layout
event is sent. -/
def handle_application_thread_terminated (r : Reactor) (pid : Int) :
    Reactor × List EffectM :=
  ({ r with apps := r.apps.filter (fun p => p != pid) },
   [.wmAppThreadTerminated pid])

end Reactor

/-! ### Concrete reactor fixtures -/

/-- Trivial oracles used by the concrete scenarios: the engine event
handler leaves the engine unchanged with a default response, the drag
manager reports no overlap target, and no space is fullscreen. -/
def exOracles : ReactorOracles :=
  { engineEvent := fun e _ => (e, {}),
    dmStep := fun d _ _ _ => (d, none),
    spaceIsFullscreen := fun _ => false }

def exFrame : Frame := { x := 0, y := 0, w := 100, h := 100 }

def exFrame2 : Frame := { x := 5, y := 5, w := 100, h := 100 }

/-- A two-window reactor: window `exW0` has a pending transaction targeting
`exFrame2`. -/
def exReactor : Reactor :=
  { windows :=
      [(exW0, { frame_monotonic := exFrame, last_sent_txid := 7,
                window_server_id := some 40 }),
       (exW1, { frame_monotonic := { x := 200, y := 0, w := 100, h := 100 },
                last_sent_txid := 3, window_server_id := some 41 })],
    apps := [1],
    screens := [{ frame := { x := 0, y := 0, w := 500, h := 300 },
                  space := some 0 }],
    mission_control_active := false,
    changing_screens := [],
    window_tx_store := some [(40, { txid := 7, target := exFrame2 })],
    pending_space_change := none,
    in_drag := false,
    active_drag := none,
    pending_drag_swap := none,
    skip_layout_for_window := none,
    suppress_stale_window_cleanup := false,
    pending_refocus_space := none,
    fullscreen_by_space := [],
    pending_mission_control_refresh := [],
    layout_engine := exEngine exStrip3,
    dm := { originFrame := none, lastTarget := none },
    main_window := none }

/-- The concrete reactor with a pending drag swap of the two windows. -/
def exReactorDrag : Reactor :=
  { exReactor with pending_drag_swap := some (exW0, exW1) }

/-- The concrete reactor with a stashed space change. -/
def exReactorPending : Reactor :=
  { exReactor with pending_space_change := some { spaces := [some 2], ws_info := [0] } }

/-! ### Helper lemmas about `listPos`, `swapIdx` and list surgery -/

theorem listPos_some_lt {l : List WindowId} {x : WindowId} {i : Nat}
    (h : listPos l x = some i) : i < l.length := by
  induction l generalizing i with
  | nil => simp [listPos] at h
  | cons y ys ih =>
    by_cases hy : y = x
    · rw [listPos, if_pos hy] at h
      simp only [Option.some.injEq] at h
      subst h
      simp
    · rw [listPos, if_neg hy] at h
      rw [Option.map_eq_some'] at h
      obtain ⟨i', hi', rfl⟩ := h
      have := ih hi'
      simp only [List.length_cons]
      omega

theorem listPos_some_getD {l : List WindowId} {x : WindowId} {i : Nat}
    (h : listPos l x = some i) (d : WindowId) : l.getD i d = x := by
  induction l generalizing i with
  | nil => simp [listPos] at h
  | cons y ys ih =>
    by_cases hy : y = x
    · rw [listPos, if_pos hy] at h
      simp only [Option.some.injEq] at h
      subst h
      simpa using hy
    · rw [listPos, if_neg hy] at h
      rw [Option.map_eq_some'] at h
      obtain ⟨i', hi', rfl⟩ := h
      simpa using ih hi'

theorem listPos_none_iff {l : List WindowId} {x : WindowId} :
    listPos l x = none ↔ x ∉ l := by
  induction l with
  | nil => simp [listPos]
  | cons y ys ih =>
    by_cases hy : y = x
    · simp [listPos, hy]
    · simp [listPos, hy, ih, Ne.symm hy]

theorem listPos_isSome_of_mem {l : List WindowId} {x : WindowId} (h : x ∈ l) :
    (listPos l x).isSome := by
  cases hp : listPos l x with
  | none => exact absurd (listPos_none_iff.mp hp) (by simpa using h)
  | some i => rfl

theorem listPos_getD_of_nodup {l : List WindowId} (hl : l.Nodup) {i : Nat}
    (hi : i < l.length) (d : WindowId) : listPos l (l.getD i d) = some i := by
  induction l generalizing i with
  | nil => simp at hi
  | cons y ys ih =>
    rcases List.nodup_cons.mp hl with ⟨hy, hys⟩
    cases i with
    | zero => rw [List.getD_cons_zero, listPos, if_pos rfl]
    | succ i =>
      have hi' : i < ys.length := by simpa using hi
      have hmem : ys.getD i d ∈ ys := by
        rw [List.getD_eq_getElem ys d hi']
        exact List.getElem_mem hi'
      have hne : y ≠ ys.getD i d := fun h => hy (h ▸ hmem)
      rw [List.getD_cons_succ, listPos, if_neg hne, ih hys hi']
      rfl

theorem listPos_insertIdx_self {l : List WindowId} {x : WindowId} {i : Nat}
    (hx : x ∉ l) (hi : i ≤ l.length) :
    listPos (l.insertIdx i x) x = some i := by
  induction i generalizing l with
  | zero => rw [List.insertIdx_zero, listPos, if_pos rfl]
  | succ i ih =>
    cases l with
    | nil => simp at hi
    | cons y ys =>
      have hy : y ≠ x := fun h => hx (h ▸ List.mem_cons_self y ys)
      have hx' : x ∉ ys := fun h => hx (List.mem_cons_of_mem y h)
      have hi' : i ≤ ys.length := by simpa using hi
      rw [List.insertIdx_succ_cons, listPos, if_neg hy, ih hx' hi']
      rfl

theorem nodup_insertIdx {l : List WindowId} {x : WindowId} {i : Nat}
    (hl : l.Nodup) (hx : x ∉ l) (hi : i ≤ l.length) :
    (l.insertIdx i x).Nodup := by
  induction i generalizing l with
  | zero =>
    rw [List.insertIdx_zero, List.nodup_cons]
    exact ⟨hx, hl⟩
  | succ i ih =>
    cases l with
    | nil => simp at hi
    | cons y ys =>
      rcases List.nodup_cons.mp hl with ⟨hy, hys⟩
      have hx' : x ∉ ys := fun h => hx (List.mem_cons_of_mem y h)
      have hi' : i ≤ ys.length := by simpa using hi
      rw [List.insertIdx_succ_cons, List.nodup_cons]
      refine ⟨fun hmem => ?_, ih hys hx' hi'⟩
      rcases (List.mem_insertIdx hi').mp hmem with h | h
      · exact hx (h ▸ List.mem_cons_self y ys)
      · exact hy h

theorem nodup_eraseIdx {l : List WindowId} (hl : l.Nodup) (i : Nat) :
    (l.eraseIdx i).Nodup :=
  (List.eraseIdx_sublist l i).nodup hl

theorem swapIdx_oob {l : List WindowId} {i j : Nat}
    (h : ¬(i < l.length ∧ j < l.length)) : swapIdx l i j = l := by
  unfold swapIdx
  cases hi : l[i]? with
  | none => rfl
  | some a =>
    cases hj : l[j]? with
    | none => rfl
    | some b =>
      obtain ⟨hib, -⟩ := List.getElem?_eq_some.mp hi
      obtain ⟨hjb, -⟩ := List.getElem?_eq_some.mp hj
      exact absurd ⟨hib, hjb⟩ h

theorem length_swapIdx (l : List WindowId) (i j : Nat) :
    (swapIdx l i j).length = l.length := by
  unfold swapIdx
  cases hi : l[i]? <;> cases hj : l[j]? <;> simp

theorem length_swapIdxQ (l : List ℚ) (i j : Nat) :
    (swapIdxQ l i j).length = l.length := by
  unfold swapIdxQ
  cases hi : l[i]? <;> cases hj : l[j]? <;> simp


theorem transp_lt {i j k n : Nat} (hi : i < n) (hj : j < n) (hk : k < n) :
    transp i j k < n := by
  unfold transp
  split_ifs <;> omega

theorem transp_inj {i j a b : Nat} (h : transp i j a = transp i j b) : a = b := by
  unfold transp at h
  split_ifs at h <;> omega

theorem getElem?_swapIdx {l : List WindowId} {i j : Nat}
    (hi : i < l.length) (hj : j < l.length) (k : Nat) :
    (swapIdx l i j)[k]? = l[transp i j k]? := by
  unfold swapIdx transp
  rw [List.getElem?_eq_getElem hi, List.getElem?_eq_getElem hj]
  rw [List.getElem?_set, List.getElem?_set]
  simp only [List.length_set]
  by_cases hkj : k = j
  · subst hkj
    rw [if_pos rfl, if_pos hj, if_pos rfl, List.getElem?_eq_getElem hi]
  · by_cases hki : k = i
    · subst hki
      rw [if_neg (fun h => hkj h.symm), if_pos rfl, if_pos hi, if_neg hkj,
        if_pos rfl, List.getElem?_eq_getElem hj]
    · rw [if_neg (fun h => hkj h.symm), if_neg (fun h => hki h.symm),
        if_neg hkj, if_neg hki]

theorem getD_swapIdx {l : List WindowId} {i j : Nat}
    (hi : i < l.length) (hj : j < l.length) (k : Nat) (d : WindowId) :
    (swapIdx l i j).getD k d = l.getD (transp i j k) d := by
  simp only [List.getD, List.get?_eq_getElem?, getElem?_swapIdx hi hj]

theorem nodup_swapIdx {l : List WindowId} (i j : Nat) (hl : l.Nodup) :
    (swapIdx l i j).Nodup := by
  by_cases hb : i < l.length ∧ j < l.length
  · obtain ⟨hi, hj⟩ := hb
    have hlen := length_swapIdx l i j
    rw [List.nodup_iff_injective_getElem] at hl ⊢
    intro a b hab
    have ha2 : a.1 < l.length := by omega
    have hb2 : b.1 < l.length := by omega
    have hsa : transp i j a.1 < l.length := transp_lt hi hj ha2
    have hsb : transp i j b.1 < l.length := transp_lt hi hj hb2
    have e1 : (swapIdx l i j).get ⟨a.1, a.2⟩ = l.get ⟨transp i j a.1, hsa⟩ := by
      have h := getElem?_swapIdx (l := l) hi hj a.1
      rw [List.getElem?_eq_getElem a.2, List.getElem?_eq_getElem hsa] at h
      exact Option.some.inj h
    have e2 : (swapIdx l i j).get ⟨b.1, b.2⟩ = l.get ⟨transp i j b.1, hsb⟩ := by
      have h := getElem?_swapIdx (l := l) hi hj b.1
      rw [List.getElem?_eq_getElem b.2, List.getElem?_eq_getElem hsb] at h
      exact Option.some.inj h
    have hg : l.get ⟨transp i j a.1, hsa⟩ = l.get ⟨transp i j b.1, hsb⟩ := by
      rw [← e1, ← e2]
      exact hab
    have hg2 : (fun k : Fin l.length => l[(k : Nat)]) ⟨transp i j a.1, hsa⟩
        = (fun k : Fin l.length => l[(k : Nat)]) ⟨transp i j b.1, hsb⟩ := hg
    have hfin := hl hg2
    have hv : transp i j a.1 = transp i j b.1 := congrArg Fin.val hfin
    exact Fin.ext (transp_inj hv)
  · rw [swapIdx_oob hb]
    exact hl

theorem mem_swapIdxQ {l : List ℚ} {i j : Nat} {w : ℚ}
    (h : w ∈ swapIdxQ l i j) : w ∈ l := by
  unfold swapIdxQ at h
  cases hi : l[i]? with
  | none => rw [hi] at h; exact h
  | some a =>
    cases hj : l[j]? with
    | none => rw [hi, hj] at h; exact h
    | some b =>
      rw [hi, hj] at h
      rcases List.mem_or_eq_of_mem_set h with h' | rfl
      · rcases List.mem_or_eq_of_mem_set h' with h'' | rfl
        · exact h''
        · exact List.getElem?_mem hj
      · exact List.getElem?_mem hi

/-- After swapping indices `i` and `j`, the element that was at `i` is found
at `j`. -/
theorem listPos_swapIdx_fst {l : List WindowId} (hl : l.Nodup) {a : WindowId}
    {i j : Nat} (ha : listPos l a = some i) (hj : j < l.length) :
    listPos (swapIdx l i j) a = some j := by
  have hi : i < l.length := listPos_some_lt ha
  have hnd : (swapIdx l i j).Nodup := nodup_swapIdx i j hl
  have hlen := length_swapIdx l i j
  have hgd : (swapIdx l i j).getD j Inhabited.default = a := by
    rw [getD_swapIdx hi hj]
    have : transp i j j = i := by unfold transp; simp
    rw [this]
    exact listPos_some_getD ha _
  have := listPos_getD_of_nodup hnd (i := j) (by omega) Inhabited.default
  rwa [hgd] at this

/-- After swapping indices `i` and `j`, the element that was at `j` is found
at `i`. -/
theorem listPos_swapIdx_snd {l : List WindowId} (hl : l.Nodup) {b : WindowId}
    {i j : Nat} (hb : listPos l b = some j) (hi : i < l.length) :
    listPos (swapIdx l i j) b = some i := by
  have hj : j < l.length := listPos_some_lt hb
  have hnd : (swapIdx l i j).Nodup := nodup_swapIdx i j hl
  have hlen := length_swapIdx l i j
  have hgd : (swapIdx l i j).getD i Inhabited.default = b := by
    rw [getD_swapIdx hi hj]
    have : transp i j i = j := by
      unfold transp
      by_cases hij : i = j
      · simp [hij]
      · simp [hij]
    rw [this]
    exact listPos_some_getD hb _
  have := listPos_getD_of_nodup hnd (i := i) (by omega) Inhabited.default
  rwa [hgd] at this

/-- Positions untouched by the swap keep their elements. -/
theorem listPos_swapIdx_other {l : List WindowId} (hl : l.Nodup) {x : WindowId}
    {i j p : Nat} (hx : listPos l x = some p) (hi : i < l.length)
    (hj : j < l.length) (hpi : p ≠ i) (hpj : p ≠ j) :
    listPos (swapIdx l i j) x = some p := by
  have hp : p < l.length := listPos_some_lt hx
  have hnd : (swapIdx l i j).Nodup := nodup_swapIdx i j hl
  have hlen := length_swapIdx l i j
  have hgd : (swapIdx l i j).getD p Inhabited.default = x := by
    rw [getD_swapIdx hi hj]
    have : transp i j p = p := by unfold transp; simp [hpi, hpj]
    rw [this]
    exact listPos_some_getD hx _
  have := listPos_getD_of_nodup hnd (i := p) (by omega) Inhabited.default
  rwa [hgd] at this

/-! ### The scroll invariants (claims C2 and C8) -/

namespace ScrollLayoutState


@[simp] theorem ensure_widths_windows (s : ScrollLayoutState) (r : ℚ) :
    (s.ensure_widths r).windows = s.windows := rfl

@[simp] theorem ensure_widths_selected (s : ScrollLayoutState) (r : ℚ) :
    (s.ensure_widths r).selected = s.selected := rfl

@[simp] theorem ensure_widths_scroll_offset (s : ScrollLayoutState) (r : ℚ) :
    (s.ensure_widths r).scroll_offset = s.scroll_offset := rfl

@[simp] theorem ensure_widths_direction (s : ScrollLayoutState) (r : ℚ) :
    (s.ensure_widths r).direction = s.direction := rfl

@[simp] theorem max_offset_ensure_widths (s : ScrollLayoutState) (r : ℚ) :
    (s.ensure_widths r).max_offset = s.max_offset := rfl

@[simp] theorem selected_index_ensure_widths (s : ScrollLayoutState) (r : ℚ) :
    (s.ensure_widths r).selected_index = s.selected_index := rfl

theorem max_offset_nonneg (s : ScrollLayoutState) : 0 ≤ s.max_offset := by
  unfold max_offset
  split_ifs
  · positivity
  · exact le_refl 0

theorem idx_le_max_offset {s : ScrollLayoutState} {i : Nat}
    (h : i < s.windows.length) : (i : ℚ) ≤ s.max_offset := by
  unfold max_offset
  split_ifs with h1
  · exact_mod_cast Nat.le_sub_one_of_lt h
  · have : i = 0 := by omega
    simp [this]

theorem committed_mk {s : ScrollLayoutState} (hnd : s.windows.Nodup)
    {sel : WindowId} {i : Nat} (hsel : s.selected = some sel)
    (hpos : listPos s.windows sel = some i) (hoff : s.scroll_offset = (i : ℚ)) :
    s.committed := by
  refine ⟨hnd, ?_, ?_, ?_⟩
  · rw [hoff]; positivity
  · rw [hoff]; exact idx_le_max_offset (listPos_some_lt hpos)
  · unfold selectionIndexOk
    rw [hsel]
    simp [hpos, hoff]

theorem committed_none {s : ScrollLayoutState} (hnd : s.windows.Nodup)
    (hsel : s.selected = none) (h0 : 0 ≤ s.scroll_offset)
    (h1 : s.scroll_offset ≤ s.max_offset) : s.committed := by
  refine ⟨hnd, h0, h1, ?_⟩
  unfold selectionIndexOk
  rw [hsel]

theorem committed_some {s : ScrollLayoutState} (h : s.committed) {sel : WindowId}
    (hsel : s.selected = some sel) :
    ∃ i, listPos s.windows sel = some i ∧ s.scroll_offset = (i : ℚ) := by
  obtain ⟨-, -, -, hok⟩ := h
  unfold selectionIndexOk at hok
  rw [hsel] at hok
  cases hp : listPos s.windows sel with
  | none => simp [hp] at hok
  | some i =>
    simp [hp] at hok
    exact ⟨i, rfl, hok⟩

end ScrollLayoutState

theorem clampQ_eq {x lo hi : ℚ} (h1 : lo ≤ x) (h2 : x ≤ hi) : clampQ x lo hi = x := by
  unfold clampQ
  rw [max_eq_left h1, min_eq_left h2]

theorem clampQ_le {x lo hi : ℚ} : clampQ x lo hi ≤ hi := min_le_right _ _

theorem le_clampQ {x lo hi : ℚ} (h : lo ≤ hi) : lo ≤ clampQ x lo hi :=
  le_min (le_max_right x lo) h

namespace ScrollLayoutState

@[simp] theorem clamp_offset_windows (s : ScrollLayoutState) :
    s.clamp_offset.windows = s.windows := by
  unfold clamp_offset
  dsimp only
  split_ifs <;> rfl

@[simp] theorem clamp_offset_selected (s : ScrollLayoutState) :
    s.clamp_offset.selected = s.selected := by
  unfold clamp_offset
  dsimp only
  split_ifs <;> rfl

@[simp] theorem clamp_offset_widths (s : ScrollLayoutState) :
    s.clamp_offset.widths = s.widths := by
  unfold clamp_offset
  dsimp only
  split_ifs <;> rfl

@[simp] theorem clamp_offset_direction (s : ScrollLayoutState) :
    s.clamp_offset.direction = s.direction := by
  unfold clamp_offset
  dsimp only
  split_ifs <;> rfl

theorem clamp_offset_of_bounds {s : ScrollLayoutState} (h0 : 0 ≤ s.scroll_offset)
    (h1 : s.scroll_offset ≤ s.max_offset) : s.clamp_offset = s := by
  unfold clamp_offset
  dsimp only
  split_ifs with hm
  · have hz : s.scroll_offset = 0 := le_antisymm (hm ▸ h1) h0
    rw [← hz]
  · rw [clampQ_eq h0 h1]

theorem clamp_offset_bounds (s : ScrollLayoutState) :
    0 ≤ s.clamp_offset.scroll_offset ∧
      s.clamp_offset.scroll_offset ≤ s.max_offset := by
  unfold clamp_offset
  dsimp only
  split_ifs with hm
  · exact ⟨le_refl 0, s.max_offset_nonneg⟩
  · exact ⟨le_clampQ s.max_offset_nonneg, clampQ_le⟩

@[simp] theorem max_offset_clamp_offset (s : ScrollLayoutState) :
    s.clamp_offset.max_offset = s.max_offset := by
  unfold max_offset
  rw [clamp_offset_windows]

/-- `ensure_selection` on a committed state with a selection leaves
everything but the widths untouched. -/
theorem ensure_selection_of_committed {s : ScrollLayoutState} (h : s.committed)
    (r : ℚ) {sel : WindowId} (hsel : s.selected = some sel)
    (hne : s.windows ≠ []) :
    s.ensure_selection r = s.ensure_widths r := by
  obtain ⟨i, hpos, hoff⟩ := committed_some h hsel
  obtain ⟨hnd, h0, h1, -⟩ := h
  unfold ensure_selection
  dsimp only
  have hemp : ((s.ensure_widths r).windows.isEmpty) = false := by
    simp [hne]
  rw [hemp]
  simp only [Bool.false_eq_true, if_false]
  have hsi : (s.ensure_widths r).selected_index = some i := by
    simp [selected_index, hsel, hpos]
  rw [hsi]
  simp only [Option.isNone_some, Bool.false_eq_true, if_false]
  have hcl : (s.ensure_widths r).clamp_offset = s.ensure_widths r :=
    clamp_offset_of_bounds (s := s.ensure_widths r) (by simpa using h0)
      (by simpa using h1)
  rw [hcl]
  rw [ensure_widths_scroll_offset, max_offset_ensure_widths,
    clampQ_eq h0 h1]
  rfl

/-- `ensure_selection` on a nonempty strip always yields some selection whose
window is in the strip; if additionally the input was committed, the
offset is that window's index. -/
theorem ensure_selection_sel {s : ScrollLayoutState} (r : ℚ)
    (hne : s.windows ≠ []) :
    (s.ensure_selection r).windows = s.windows ∧
    (s.ensure_selection r).direction = s.direction ∧
    ∃ sel i, (s.ensure_selection r).selected = some sel ∧
      listPos s.windows sel = some i := by
  unfold ensure_selection
  dsimp only
  have hemp : ((s.ensure_widths r).windows.isEmpty) = false := by simp [hne]
  rw [hemp]
  simp only [Bool.false_eq_true, if_false]
  cases hsi : (s.ensure_widths r).selected_index with
  | none =>
    simp only [Option.isNone_none, if_true]
    refine ⟨by simp, by simp, s.windows.headI, 0, by simp, ?_⟩
    cases hw : s.windows with
    | nil => exact absurd hw hne
    | cons w ws =>
      simp only [hw, List.headI]
      rw [listPos, if_pos rfl]
  | some i =>
    simp only [Option.isNone_some, Bool.false_eq_true, if_false]
    rw [selected_index_ensure_widths] at hsi
    refine ⟨by simp, by simp, ?_⟩
    cases hsel : s.selected with
    | none => simp [selected_index, hsel] at hsi
    | some sel =>
      simp only [selected_index, hsel, Option.some_bind] at hsi
      exact ⟨sel, i, by simp [hsel], hsi⟩

/-- The clamping tail of `ensure_selection` is the identity on a state
whose offset is zero. -/
theorem clamp_tail_zero (t : ScrollLayoutState) (h : t.scroll_offset = 0) :
    { t.clamp_offset with
      scroll_offset :=
        clampQ t.clamp_offset.scroll_offset 0 t.clamp_offset.max_offset } = t := by
  have hcl : t.clamp_offset = t :=
    clamp_offset_of_bounds (le_of_eq h.symm) (h.trans_le t.max_offset_nonneg)
  rw [hcl, h, clampQ_eq (le_refl 0) t.max_offset_nonneg, ← h]

/-- `ensure_selection` on a nonempty strip with no selection picks the head
and resets the offset. -/
theorem ensure_selection_of_none {s : ScrollLayoutState} (r : ℚ)
    (hne : s.windows ≠ []) (hsel : s.selected = none) :
    s.ensure_selection r =
      { s.ensure_widths r with
          selected := some (s.windows.headI),
          scroll_offset := 0 } := by
  unfold ensure_selection
  dsimp only
  have hemp : ((s.ensure_widths r).windows.isEmpty) = false := by simp [hne]
  rw [hemp]
  simp only [Bool.false_eq_true, if_false]
  have hsi : (s.ensure_widths r).selected_index = none := by
    simp [selected_index, hsel]
  rw [hsi]
  simp only [Option.isNone_none, if_true]
  exact clamp_tail_zero _ rfl

/-- `ensure_widths` preserves the committed invariant. -/
theorem committed_ensure_widths {s : ScrollLayoutState} (h : s.committed)
    (r : ℚ) : (s.ensure_widths r).committed := h

/-- `ensure_selection` preserves the committed invariant. -/
theorem committed_ensure_selection {s : ScrollLayoutState} (h : s.committed)
    (r : ℚ) : (s.ensure_selection r).committed := by
  by_cases hne : s.windows = []
  · unfold ensure_selection
    dsimp only
    have hemp : ((s.ensure_widths r).windows.isEmpty) = true := by simp [hne]
    rw [hemp]
    simp only [if_true]
    exact committed_none (by simp [hne]) rfl (le_refl 0)
      (max_offset_nonneg _)
  · cases hsel : s.selected with
    | none =>
      rw [ensure_selection_of_none r hne hsel]
      refine committed_mk (by simpa using h.1) rfl ?_ rfl
      · show listPos s.windows s.windows.headI = some 0
        cases hw : s.windows with
        | nil => exact absurd hw hne
        | cons w ws =>
          simp only [List.headI]
          rw [listPos, if_pos rfl]
    | some sel =>
      rw [ensure_selection_of_committed h r hsel hne]
      exact committed_ensure_widths h r

end ScrollLayoutState

theorem listPos_headI {l : List WindowId} (h : l ≠ []) :
    listPos l l.headI = some 0 := by
  cases l with
  | nil => exact absurd rfl h
  | cons w ws =>
    show listPos (w :: ws) w = some 0
    rw [listPos, if_pos rfl]

theorem ratToNat_natCast (i : Nat) : ratToNat ((i : Nat) : ℚ) = i := by
  unfold ratToNat
  rw [Int.floor_natCast]
  exact Int.toNat_natCast i

namespace ScrollLayoutState

/-- Bundled description of `ensure_selection` on a nonempty committed
state: windows and direction survive, the result is committed, and the
offset equals the index of the (now guaranteed) selection. -/
theorem ensure_selection_full {s : ScrollLayoutState} (h : s.committed) (r : ℚ)
    (hne : s.windows ≠ []) :
    (s.ensure_selection r).windows = s.windows ∧
    (s.ensure_selection r).direction = s.direction ∧
    (s.ensure_selection r).committed ∧
    ∃ sel i, (s.ensure_selection r).selected = some sel ∧
      listPos s.windows sel = some i ∧
      (s.ensure_selection r).scroll_offset = (i : ℚ) := by
  cases hsel : s.selected with
  | some sel =>
    rw [ensure_selection_of_committed h r hsel hne]
    obtain ⟨i, hp, ho⟩ := committed_some h hsel
    exact ⟨by simp, by simp, committed_ensure_widths h r, sel, i,
      by simp [hsel], hp, by simpa using ho⟩
  | none =>
    rw [ensure_selection_of_none r hne hsel]
    refine ⟨rfl, rfl, ?_, s.windows.headI, 0, rfl, listPos_headI hne, rfl⟩
    exact committed_mk (by simpa using h.1) rfl (listPos_headI hne) rfl

/-- `select_window` preserves the committed invariant (C2). -/
theorem committed_select_window {s : ScrollLayoutState} (h : s.committed)
    (wid : WindowId) : (s.select_window wid).1.committed := by
  unfold select_window
  dsimp only
  cases hp : listPos s.windows wid with
  | none => simpa using h
  | some p =>
    simp only [hp, Option.isNone_some, Bool.false_eq_true, if_false]
    have hsi : ({ s with selected := some wid } : ScrollLayoutState).selected_index
        = some p := by
      simp [selected_index, hp]
    rw [hsi]
    exact committed_mk h.1 rfl hp rfl

/-- A `selected_index` hit names an actual selection and its position. -/
theorem selected_index_eq_some {s : ScrollLayoutState} {i : Nat}
    (h : s.selected_index = some i) :
    ∃ sel, s.selected = some sel ∧ listPos s.windows sel = some i := by
  cases hsel : s.selected with
  | none => simp [selected_index, hsel] at h
  | some sel =>
    simp only [selected_index, hsel, Option.some_bind] at h
    exact ⟨sel, rfl, h⟩

/-- `toggle_tile_orientation` preserves the committed invariant. -/
theorem committed_toggle_tile_orientation {s : ScrollLayoutState}
    (h : s.committed) : s.toggle_tile_orientation.committed := by
  unfold toggle_tile_orientation
  dsimp only
  have hsi : ({ s with direction := s.direction.toggle } :
      ScrollLayoutState).selected_index = s.selected_index := rfl
  rw [hsi]
  cases hsi2 : s.selected_index with
  | some i =>
    obtain ⟨sel, hsel, hp⟩ := selected_index_eq_some hsi2
    exact committed_mk h.1 (show _ = some sel from hsel) hp rfl
  | none =>
    have hsel : s.selected = none := by
      cases hs : s.selected with
      | none => rfl
      | some sel =>
        obtain ⟨i, hp, -⟩ := committed_some h hs
        rw [selected_index, hs] at hsi2
        simp [hp] at hsi2
    refine committed_none h.1 (show _ = none from hsel)
      (le_clampQ (max_offset_nonneg _)) clampQ_le

/-- Selecting the window stored at a valid index yields a committed state. -/
theorem committed_set_to_index {s : ScrollLayoutState} (hnd : s.windows.Nodup)
    {k : Nat} (hk : k < s.windows.length) (d : WindowId) :
    ({ s with
        selected := some (s.windows.getD k d),
        scroll_offset := (k : ℚ) } : ScrollLayoutState).committed :=
  committed_mk hnd rfl (listPos_getD_of_nodup hnd hk d) rfl

/-- `ensure_selection` on an empty strip clears selection and offset. -/
theorem ensure_selection_of_empty (s : ScrollLayoutState) (r : ℚ)
    (he : s.windows = []) :
    s.ensure_selection r =
      { s.ensure_widths r with selected := none, scroll_offset := 0 } := by
  unfold ensure_selection
  dsimp only
  have hemp : ((s.ensure_widths r).windows.isEmpty) = true := by simp [he]
  rw [hemp, if_pos rfl]

/-- `finalize_scroll` leaves the state committed (C2). -/
theorem committed_finalize_scroll {s : ScrollLayoutState} (h : s.committed)
    (cfg : ScrollRuntimeConfig) : (s.finalize_scroll cfg).1.committed := by
  unfold finalize_scroll
  dsimp only
  by_cases hne : s.windows = []
  · rw [ensure_selection_of_empty s cfg.default_window_r hne]
    dsimp only
    simp only [ensure_widths_windows, hne, List.getElem?_nil]
    refine committed_none (by simp) rfl ?_ ?_ <;>
      simp [max_offset, clampQ, hne]
  · cases hsel : s.selected with
    | some sel =>
      obtain ⟨i, hp, ho⟩ := committed_some h hsel
      rw [ensure_selection_of_committed h _ hsel hne]
      simp only [ensure_widths_scroll_offset, max_offset_ensure_widths,
        ensure_widths_windows, ensure_widths_selected]
      rw [ho]
      simp only [show ∀ a b c d, (ScrollLayoutState.mk s.windows a b c d).max_offset
        = s.max_offset from fun _ _ _ _ => rfl]
      have hilen : i < s.windows.length := listPos_some_lt hp
      have hclamp : clampQ ((i : Nat) : ℚ) 0 s.max_offset = ((i : Nat) : ℚ) :=
        clampQ_eq (by positivity) (idx_le_max_offset hilen)
      rw [hclamp, Int.floor_natCast, Int.cast_natCast, hclamp, sub_self,
        ratToNat_natCast]
      by_cases hc : cfg.snap_threshold ≤ 0 ∧ i + 1 < s.windows.length
      · rw [if_pos hc]
        rw [List.getElem?_eq_getElem hc.2]
        exact committed_mk h.1 rfl
          (by
            rw [← List.getD_eq_getElem s.windows Inhabited.default hc.2]
            exact listPos_getD_of_nodup h.1 hc.2 _) rfl
      · rw [if_neg hc]
        rw [List.getElem?_eq_getElem hilen]
        exact committed_mk h.1 rfl
          (by
            rw [← List.getD_eq_getElem s.windows Inhabited.default hilen]
            exact listPos_getD_of_nodup h.1 hilen _) rfl
    | none =>
      rw [ensure_selection_of_none _ hne hsel]
      dsimp only
      simp only [ensure_widths_scroll_offset, max_offset_ensure_widths,
        ensure_widths_windows, ensure_widths_selected]
      simp only [show ∀ a b c d, (ScrollLayoutState.mk s.windows a b c d).max_offset
        = s.max_offset from fun _ _ _ _ => rfl]
      have hclamp : clampQ (0 : ℚ) 0 s.max_offset = ((0 : Nat) : ℚ) :=
        clampQ_eq (le_refl 0) (max_offset_nonneg s)
      rw [show ((0:Nat) : ℚ) = (0:ℚ) from rfl] at hclamp
      have hlen0 : 0 < s.windows.length := List.length_pos.mpr hne
      rw [hclamp]
      rw [show ((⌊(0:ℚ)⌋ : ℤ) : ℚ) = (0:ℚ) by norm_num]
      rw [hclamp, sub_self, show ratToNat 0 = 0 from rfl]
      by_cases hc : cfg.snap_threshold ≤ 0 ∧ 0 + 1 < s.windows.length
      · rw [if_pos hc]
        rw [List.getElem?_eq_getElem hc.2]
        exact committed_mk h.1 rfl
          (by
            rw [← List.getD_eq_getElem s.windows Inhabited.default hc.2]
            exact listPos_getD_of_nodup h.1 hc.2 _) rfl
      · rw [if_neg hc]
        rw [List.getElem?_eq_getElem hlen0]
        exact committed_mk h.1 rfl
          (by
            rw [← List.getD_eq_getElem s.windows Inhabited.default hlen0]
            exact listPos_getD_of_nodup h.1 hlen0 _) rfl

/-- `move_focus` leaves the state committed (C2). -/
theorem committed_move_focus {s : ScrollLayoutState} (h : s.committed)
    (cfg : ScrollRuntimeConfig) (d : Dir) : (s.move_focus cfg d).1.committed := by
  unfold move_focus
  dsimp only
  by_cases hne : s.windows = []
  · simp only [hne, List.isEmpty_nil, if_true]
    exact committed_none (by simp [hne]) rfl (le_refl 0) (max_offset_nonneg _)
  · have hemp : s.windows.isEmpty = false := by simp [hne]
    rw [hemp]
    simp only [Bool.false_eq_true, if_false]
    obtain ⟨hw, hdir, hc, sel, i, hsel, hp, ho⟩ :=
      ensure_selection_full h cfg.default_window_r hne
    set t := s.ensure_selection cfg.default_window_r with hts
    have hilen : i < t.windows.length := by
      rw [hw]
      exact listPos_some_lt hp
    have hsi : t.selected_index = some i := by
      simp [selected_index, hsel, hw, hp]
    rw [hsi]
    simp only [Option.getD_some]
    have hlen0 : 0 < t.windows.length := by omega
    cases d <;> dsimp only <;> split_ifs with ht <;> dsimp only
    all_goals
      first
      | exact hc
      | exact committed_set_to_index hc.1 (by omega) _

/-- The shared tail of `remove_window` (trait impl) and `rebalance`:
`ensure_selection`, then the offset is pinned to the selected index. -/
theorem committed_sel_index_tail (u : ScrollLayoutState) (r : ℚ)
    (hnd : u.windows.Nodup) :
    (match (u.ensure_selection r).selected_index with
      | some idx =>
        { u.ensure_selection r with scroll_offset := (idx : ℚ) }
      | none => { u.ensure_selection r with scroll_offset := 0 }).committed := by
  by_cases hne : u.windows = []
  · rw [ensure_selection_of_empty u r hne]
    have hsi : ({ u.ensure_widths r with selected := none, scroll_offset := 0 } :
        ScrollLayoutState).selected_index = none := by
      simp [selected_index]
    rw [hsi]
    exact committed_none (by simp [hne]) rfl (le_refl 0) (max_offset_nonneg _)
  · obtain ⟨hw, hdir, sel, i, hsel, hp⟩ := ensure_selection_sel r hne
    have hsi : (u.ensure_selection r).selected_index = some i := by
      simp [selected_index, hsel, hw, hp]
    rw [hsi]
    exact committed_mk (hw ▸ hnd) (by simpa using hsel) (hw ▸ hp) rfl

/-- The per-state `remove_window` operation leaves the state committed. -/
theorem committed_remove_window_op {s : ScrollLayoutState} (h : s.committed)
    (cfg : ScrollRuntimeConfig) (wid : WindowId) :
    (s.remove_window_op cfg wid).committed := by
  unfold remove_window_op remove_window
  dsimp only
  cases hp : listPos s.windows wid with
  | none => exact h
  | some idx =>
    dsimp only
    refine committed_sel_index_tail _ cfg.default_window_r ?_
    simp only [ensure_widths_windows]
    have hbase : (s.windows.eraseIdx idx).Nodup := nodup_eraseIdx h.1 idx
    split <;> split
    all_goals try exact hbase
    all_goals split
    all_goals try exact hbase
    all_goals split <;> exact hbase

/-- `rebalance` leaves the state committed (C2). -/
theorem committed_rebalance {s : ScrollLayoutState} (h : s.committed)
    (cfg : ScrollRuntimeConfig) : (s.rebalance cfg).committed := by
  unfold rebalance
  dsimp only
  by_cases hne : s.windows = []
  · simp only [hne, List.isEmpty_nil, if_true]
    exact h
  · have hemp : s.windows.isEmpty = false := by simp [hne]
    rw [hemp]
    simp only [Bool.false_eq_true, if_false]
    exact committed_sel_index_tail _ cfg.default_window_r h.1

/-- `add_window_after_selection` with a fresh window leaves the state
committed (C2). -/
theorem committed_add_window {s : ScrollLayoutState} (h : s.committed)
    (cfg : ScrollRuntimeConfig) {wid : WindowId} (hw : wid ∉ s.windows) :
    (s.add_window_after_selection cfg wid).committed := by
  unfold add_window_after_selection
  dsimp only
  have hle : ((s.selected_index.map (· + 1)).getD s.windows.length)
      ≤ s.windows.length := by
    cases hsi : s.selected_index with
    | none => simp
    | some i =>
      obtain ⟨sel, hsel, hpos⟩ := selected_index_eq_some hsi
      have := listPos_some_lt hpos
      simp only [Option.map_some', Option.getD_some]
      omega
  refine committed_ensure_widths ?_ cfg.default_window_r
  refine committed_mk (nodup_insertIdx h.1 hw hle) rfl
    (listPos_insertIdx_self hw hle) ?_
  have hlt : (s.selected_index.map (· + 1)).getD s.windows.length
      < (s.windows.insertIdx ((s.selected_index.map (· + 1)).getD s.windows.length)
          wid).length := by
    rw [List.length_insertIdx _ _ hle]
    omega
  exact min_eq_left (idx_le_max_offset hlt)

/-- `swap_windows` leaves the state committed (C2). -/
theorem committed_swap_windows {s : ScrollLayoutState} (h : s.committed)
    (a b : WindowId) : (s.swap_windows a b).1.committed := by
  unfold swap_windows
  dsimp only
  cases hpa : listPos s.windows a with
  | none => exact h
  | some ai =>
    cases hpb : listPos s.windows b with
    | none => exact h
    | some bi =>
      dsimp only
      have hai : ai < s.windows.length := listPos_some_lt hpa
      have hbi : bi < s.windows.length := listPos_some_lt hpb
      have hnd : (swapIdx s.windows ai bi).Nodup := nodup_swapIdx ai bi h.1
      have hmax : ∀ a b c d, (ScrollLayoutState.mk (swapIdx s.windows ai bi)
          a b c d).max_offset = s.max_offset := by
        intro a b c d
        unfold max_offset
        rw [show (ScrollLayoutState.mk (swapIdx s.windows ai bi)
          a b c d).windows = swapIdx s.windows ai bi from rfl,
          length_swapIdx]
      split
      case isTrue hcw =>
        by_cases hsa : s.selected = some a
        · rw [if_pos hsa]
          exact committed_mk hnd hsa (listPos_swapIdx_fst h.1 hpa hbi) rfl
        · rw [if_neg hsa]
          by_cases hsb : s.selected = some b
          · rw [if_pos hsb]
            exact committed_mk hnd hsb (listPos_swapIdx_snd h.1 hpb hai) rfl
          · rw [if_neg hsb]
            cases hsel : s.selected with
            | none =>
              refine committed_none hnd rfl h.2.1 ?_
              rw [hmax]
              exact h.2.2.1
            | some sel =>
              obtain ⟨p, hpp, hop⟩ := committed_some h hsel
              have h1 : s.windows.getD p Inhabited.default = sel :=
                listPos_some_getD hpp _
              have hpi : p ≠ ai := by
                intro hcon
                apply hsa
                rw [hsel, ← h1, hcon, listPos_some_getD hpa Inhabited.default]
              have hpj : p ≠ bi := by
                intro hcon
                apply hsb
                rw [hsel, ← h1, hcon, listPos_some_getD hpb Inhabited.default]
              exact committed_mk hnd rfl
                (listPos_swapIdx_other h.1 hpp hai hbi hpi hpj) hop
      case isFalse hcw =>
        by_cases hsa : s.selected = some a
        · rw [if_pos hsa]
          exact committed_mk hnd hsa (listPos_swapIdx_fst h.1 hpa hbi) rfl
        · rw [if_neg hsa]
          by_cases hsb : s.selected = some b
          · rw [if_pos hsb]
            exact committed_mk hnd hsb (listPos_swapIdx_snd h.1 hpb hai) rfl
          · rw [if_neg hsb]
            cases hsel : s.selected with
            | none =>
              refine committed_none hnd rfl h.2.1 ?_
              rw [hmax]
              exact h.2.2.1
            | some sel =>
              obtain ⟨p, hpp, hop⟩ := committed_some h hsel
              have h1 : s.windows.getD p Inhabited.default = sel :=
                listPos_some_getD hpp _
              have hpi : p ≠ ai := by
                intro hcon
                apply hsa
                rw [hsel, ← h1, hcon, listPos_some_getD hpa Inhabited.default]
              have hpj : p ≠ bi := by
                intro hcon
                apply hsb
                rw [hsel, ← h1, hcon, listPos_some_getD hpb Inhabited.default]
              exact committed_mk hnd rfl
                (listPos_swapIdx_other h.1 hpp hai hbi hpi hpj) hop

theorem length_resizeList (l : List ℚ) (n : Nat) (v : ℚ) :
    (resizeList l n v).length = n := by
  unfold resizeList
  simp only [List.length_append, List.length_take, List.length_replicate]
  omega

/-- `ensure_widths` establishes the widths invariant outright. -/
theorem widthsOk_ensure_widths (s : ScrollLayoutState) (r : ℚ) :
    (s.ensure_widths r).widthsOk := by
  unfold ScrollLayoutState.ensure_widths widthsOk
  dsimp only
  have hfb : MIN_WIDTH_UNITS ≤ max r MIN_WIDTH_UNITS := le_max_right _ _
  constructor
  · split_ifs <;>
      simp only [List.length_map, length_resizeList, ensure_widths_windows] <;>
      omega
  · intro w hw
    split_ifs at hw with h1 h2 h3
    all_goals
      first
      | (rw [List.mem_map] at hw
         obtain ⟨x, -, rfl⟩ := hw
         exact hfb)
      | (rw [List.mem_map] at hw
         obtain ⟨x, -, rfl⟩ := hw
         split_ifs with h5
         · exact hfb
         · exact le_of_not_lt h5)

/-- The widths invariant only depends on the widths and windows fields. -/
theorem widthsOk_congr {s t : ScrollLayoutState} (hw : t.widths = s.widths)
    (hwin : t.windows = s.windows) (h : s.widthsOk) : t.widthsOk := by
  unfold widthsOk at h ⊢
  rw [hw, hwin]
  exact h

/-- `ensure_selection` establishes the widths invariant outright. -/
theorem widthsOk_ensure_selection (s : ScrollLayoutState) (r : ℚ) :
    (s.ensure_selection r).widthsOk := by
  have hbase := widthsOk_ensure_widths s r
  unfold ensure_selection
  dsimp only
  split_ifs with h1 h2
  · exact hbase
  · exact widthsOk_congr (by simp) (by simp) hbase
  · exact widthsOk_congr (by simp) (by simp) hbase

theorem widthsOk_scroll_by {s : ScrollLayoutState} (h : s.widthsOk)
    (cfg : ScrollRuntimeConfig) (delta : ℚ) : (s.scroll_by cfg delta).1.widthsOk := by
  unfold scroll_by
  dsimp only
  split_ifs <;>
    first
    | exact widthsOk_congr rfl rfl h
    | exact widthsOk_congr rfl rfl (widthsOk_ensure_selection s _)

theorem widthsOk_finalize_scroll (s : ScrollLayoutState)
    (cfg : ScrollRuntimeConfig) : (s.finalize_scroll cfg).1.widthsOk := by
  unfold finalize_scroll
  dsimp only
  split
  · exact widthsOk_congr rfl rfl (widthsOk_ensure_selection s _)
  · exact widthsOk_congr rfl rfl (widthsOk_ensure_selection s _)

theorem widthsOk_move_focus {s : ScrollLayoutState} (h : s.widthsOk)
    (cfg : ScrollRuntimeConfig) (d : Dir) : (s.move_focus cfg d).1.widthsOk := by
  unfold move_focus
  dsimp only
  split_ifs <;>
    first
    | exact widthsOk_congr rfl rfl h
    | exact widthsOk_congr rfl rfl (widthsOk_ensure_selection s _)

theorem widthsOk_add_window (s : ScrollLayoutState) (cfg : ScrollRuntimeConfig)
    (wid : WindowId) : (s.add_window_after_selection cfg wid).widthsOk := by
  unfold add_window_after_selection
  dsimp only
  exact widthsOk_ensure_widths _ _

/-- Widths invariant for the shared `ensure_selection`-then-pin-offset tail. -/
theorem widthsOk_sel_index_tail (u : ScrollLayoutState) (r : ℚ) :
    (match (u.ensure_selection r).selected_index with
      | some idx => { u.ensure_selection r with scroll_offset := (idx : ℚ) }
      | none => { u.ensure_selection r with scroll_offset := 0 }).widthsOk := by
  cases (u.ensure_selection r).selected_index with
  | some idx => exact widthsOk_congr rfl rfl (widthsOk_ensure_selection u r)
  | none => exact widthsOk_congr rfl rfl (widthsOk_ensure_selection u r)

theorem widthsOk_remove_window_op {s : ScrollLayoutState} (h : s.widthsOk)
    (cfg : ScrollRuntimeConfig) (wid : WindowId) :
    (s.remove_window_op cfg wid).widthsOk := by
  unfold remove_window_op remove_window
  dsimp only
  cases hp : listPos s.windows wid with
  | none => exact h
  | some idx =>
    dsimp only
    exact widthsOk_sel_index_tail _ _

theorem widthsOk_select_window {s : ScrollLayoutState} (h : s.widthsOk)
    (wid : WindowId) : (s.select_window wid).1.widthsOk := by
  unfold select_window
  dsimp only
  split_ifs with h1
  · exact h
  · split
    · exact widthsOk_congr rfl rfl h
    · exact widthsOk_congr rfl rfl h

theorem widthsOk_swap_windows {s : ScrollLayoutState} (h : s.widthsOk)
    (a b : WindowId) : (s.swap_windows a b).1.widthsOk := by
  unfold swap_windows
  dsimp only
  cases hpa : listPos s.windows a with
  | none => exact h
  | some ai =>
    cases hpb : listPos s.windows b with
    | none => exact h
    | some bi =>
      dsimp only
      obtain ⟨hl, hm⟩ := h
      split_ifs <;>
        refine ⟨?_, ?_⟩ <;>
        first
        | (simp only [length_swapIdx, length_swapIdxQ]
           exact hl)
        | (intro w hw
           first
           | exact hm w (mem_swapIdxQ hw)
           | exact hm w hw)

theorem widthsOk_resize_selection_by {s : ScrollLayoutState} (h : s.widthsOk)
    (cfg : ScrollRuntimeConfig) (amount : ℚ) :
    (s.resize_selection_by cfg amount).widthsOk := by
  unfold resize_selection_by
  dsimp only
  split_ifs with h1 h2
  · exact h
  · exact h
  · cases (s.ensure_selection cfg.default_window_r).selected_index with
    | none => exact widthsOk_ensure_selection _ _
    | some idx => exact widthsOk_congr rfl rfl (widthsOk_ensure_widths _ _)

theorem widthsOk_rebalance {s : ScrollLayoutState} (h : s.widthsOk)
    (cfg : ScrollRuntimeConfig) : (s.rebalance cfg).widthsOk := by
  unfold rebalance
  dsimp only
  split_ifs with h1
  · exact h
  · exact widthsOk_sel_index_tail _ _

theorem widthsOk_toggle {s : ScrollLayoutState} (h : s.widthsOk) :
    s.toggle_tile_orientation.widthsOk := by
  unfold toggle_tile_orientation
  dsimp only
  split
  · exact widthsOk_congr rfl rfl h
  · exact widthsOk_congr rfl rfl h

theorem widthsOk_default : ScrollLayoutState.default.widthsOk := by
  unfold ScrollLayoutState.default widthsOk
  exact ⟨rfl, by intro w hw; simp at hw⟩

end ScrollLayoutState



namespace ScrollLayoutState

/-- `scroll_by` from a committed state with a selection, by a delta that
lands exactly on an in-range index `j`, selects the window at `j` and sets
the offset to `j` (no snap adjustment fires when the landing is exact and
the snap threshold is positive). -/
theorem scroll_by_exact {s : ScrollLayoutState} (h : s.committed)
    {sel : WindowId} {i : Nat} (hsel : s.selected = some sel)
    (hp : listPos s.windows sel = some i)
    (cfg : ScrollRuntimeConfig) (hsnap : 0 < cfg.snap_threshold)
    {delta : ℚ} {j : Nat} (hj : j < s.windows.length)
    (hd : (i : ℚ) + delta = (j : ℚ)) :
    (s.scroll_by cfg delta).1 =
      { s.ensure_widths cfg.default_window_r with
          selected := some (s.windows.getD j Inhabited.default),
          scroll_offset := (j : ℚ) } := by
  have hoff : s.scroll_offset = (i : ℚ) := by
    obtain ⟨i2, hp2, hoff2⟩ := committed_some h hsel
    rw [hp] at hp2
    injection hp2 with h2
    subst h2
    exact hoff2
  have hne : s.windows ≠ [] := by
    intro he
    rw [he] at hj
    exact absurd hj (by simp)
  unfold scroll_by
  dsimp only
  have hemp : (s.windows.isEmpty) = false := by simp [hne]
  rw [hemp]
  simp only [Bool.false_eq_true, if_false]
  rw [ensure_selection_of_committed h _ hsel hne]
  have hsi : (s.ensure_widths cfg.default_window_r).selected_index = some i := by
    simp [selected_index, hsel, hp]
  rw [hsi]
  simp only [Option.getD_some, ensure_widths_scroll_offset,
    max_offset_ensure_widths, ensure_widths_windows, ensure_widths_selected]
  rw [hoff, hd]
  simp only [show ∀ a b c d, (ScrollLayoutState.mk s.windows a b c d).max_offset
    = s.max_offset from fun _ _ _ _ => rfl]
  have hclamp : clampQ ((j : Nat) : ℚ) 0 s.max_offset = ((j : Nat) : ℚ) :=
    clampQ_eq (by positivity) (idx_le_max_offset hj)
  rw [hclamp, Int.floor_natCast, Int.cast_natCast, hclamp, sub_self,
    ratToNat_natCast]
  have hsnapc : ¬(cfg.snap_threshold ≤ 0 ∧ j + 1 < s.windows.length) :=
    fun hc => absurd hc.1 (not_le.mpr hsnap)
  rw [if_neg hsnapc]
  by_cases hji : j = i
  · subst hji
    rw [if_neg (by simp)]
    rw [hsel, listPos_some_getD hp Inhabited.default]
  · rw [if_pos (by simpa using hji)]
    rfl

/-- `finalize_scroll` from a committed state with a selection at index `k`
keeps the selection and the offset (the snap adjustment never fires on an
exact integer offset when the snap threshold is positive). -/
theorem finalize_scroll_exact {t : ScrollLayoutState} (h : t.committed)
    {sel : WindowId} {k : Nat} (hsel : t.selected = some sel)
    (hp : listPos t.windows sel = some k)
    (cfg : ScrollRuntimeConfig) (hsnap : 0 < cfg.snap_threshold) :
    (t.finalize_scroll cfg).1 =
      { t.ensure_widths cfg.default_window_r with
          selected := some sel, scroll_offset := (k : ℚ) } ∧
    (t.finalize_scroll cfg).2 = some sel := by
  have hoff : t.scroll_offset = (k : ℚ) := by
    obtain ⟨k2, hp2, hoff2⟩ := committed_some h hsel
    rw [hp] at hp2
    injection hp2 with h2
    subst h2
    exact hoff2
  have hklen : k < t.windows.length := listPos_some_lt hp
  have hne : t.windows ≠ [] := by
    intro he
    rw [he] at hklen
    exact absurd hklen (by simp)
  unfold finalize_scroll
  dsimp only
  rw [ensure_selection_of_committed h _ hsel hne]
  simp only [ensure_widths_scroll_offset, max_offset_ensure_widths,
    ensure_widths_windows, ensure_widths_selected]
  rw [hoff]
  simp only [show ∀ a b c d, (ScrollLayoutState.mk t.windows a b c d).max_offset
    = t.max_offset from fun _ _ _ _ => rfl]
  have hclamp : clampQ ((k : Nat) : ℚ) 0 t.max_offset = ((k : Nat) : ℚ) :=
    clampQ_eq (by positivity) (idx_le_max_offset hklen)
  rw [hclamp, Int.floor_natCast, Int.cast_natCast, hclamp, sub_self,
    ratToNat_natCast]
  have hsnapc : ¬(cfg.snap_threshold ≤ 0 ∧ k + 1 < t.windows.length) :=
    fun hc => absurd hc.1 (not_le.mpr hsnap)
  rw [if_neg hsnapc]
  rw [List.getElem?_eq_getElem hklen]
  have hgd : t.windows[k] = sel := by
    rw [← List.getD_eq_getElem t.windows Inhabited.default hklen]
    exact listPos_some_getD hp Inhabited.default
  rw [hgd]
  exact ⟨rfl, rfl⟩

end ScrollLayoutState


/-! ### Association-list lemmas -/

theorem getA_append_right {α β : Type} [DecidableEq α] {l : List (α × β)}
    (m : List (α × β)) {k : α} (h : getA l k = none) :
    getA (l ++ m) k = getA m k := by
  induction l with
  | nil => rfl
  | cons p ps ih =>
    rw [getA] at h
    by_cases hp : p.1 = k
    · rw [if_pos hp] at h
      exact absurd h (by simp)
    · rw [if_neg hp] at h
      show getA (p :: (ps ++ m)) k = getA m k
      rw [getA, if_neg hp]
      exact ih h

theorem getA_map_put {α β : Type} [DecidableEq α] {l : List (α × β)} {k : α}
    (h : (getA l k).isSome) (v : β) :
    getA (l.map (fun p => if p.1 = k then (k, v) else p)) k = some v := by
  induction l with
  | nil => simp [getA] at h
  | cons p ps ih =>
    by_cases hp : p.1 = k
    · show getA ((if p.1 = k then (k, v) else p) :: _) k = some v
      rw [if_pos hp]
      rw [getA, if_pos rfl]
    · show getA ((if p.1 = k then (k, v) else p) :: _) k = some v
      rw [if_neg hp]
      rw [getA, if_neg hp]
      rw [getA, if_neg hp] at h
      exact ih h

theorem getA_putA {α β : Type} [DecidableEq α] (l : List (α × β)) (k : α)
    (v : β) : getA (putA l k v) k = some v := by
  unfold putA
  by_cases h : (getA l k).isSome
  · rw [if_pos h]
    exact getA_map_put h v
  · rw [if_neg h]
    have hn : getA l k = none := by
      cases hg : getA l k with
      | none => rfl
      | some w => rw [hg] at h; exact absurd (by simp) h
    rw [getA_append_right _ hn]
    rw [getA, if_pos rfl]

theorem getA_map_put_ne {α β : Type} [DecidableEq α] {l : List (α × β)}
    {k k' : α} (v : β) (h : k ≠ k') :
    getA (l.map (fun p => if p.1 = k then (k, v) else p)) k' = getA l k' := by
  induction l with
  | nil => rfl
  | cons p ps ih =>
    show getA ((if p.1 = k then (k, v) else p) :: _) k' = _
    by_cases hp : p.1 = k
    · rw [if_pos hp, getA, if_neg h, getA, if_neg (fun he => h (hp.symm.trans he))]
      exact ih
    · rw [if_neg hp, getA, getA]
      by_cases hpk : p.1 = k'
      · rw [if_pos hpk, if_pos hpk]
      · rw [if_neg hpk, if_neg hpk]
        exact ih

theorem getA_append_single_ne {α β : Type} [DecidableEq α] (l : List (α × β))
    {k k' : α} (v : β) (h : k ≠ k') :
    getA (l ++ [(k, v)]) k' = getA l k' := by
  induction l with
  | nil =>
    show getA [(k, v)] k' = none
    rw [getA, if_neg h]
    rfl
  | cons p ps ih =>
    show getA (p :: (ps ++ [(k, v)])) k' = _
    rw [getA, getA]
    by_cases hpk : p.1 = k'
    · rw [if_pos hpk, if_pos hpk]
    · rw [if_neg hpk, if_neg hpk]
      exact ih

theorem getA_putA_ne {α β : Type} [DecidableEq α] (l : List (α × β)) {k k' : α}
    (v : β) (h : k ≠ k') : getA (putA l k v) k' = getA l k' := by
  unfold putA
  by_cases hs : (getA l k).isSome
  · rw [if_pos hs]
    exact getA_map_put_ne v h
  · rw [if_neg hs]
    exact getA_append_single_ne l v h

namespace VirtualWorkspaceManager

/-- `set_last_focused_window` does not change which workspace is active on
any space. -/
theorem active_workspace_set_last_focused (v : VirtualWorkspaceManager)
    (space : SpaceId) (ws : WorkspaceId) (w : Option WindowId)
    (space' : SpaceId) :
    (v.set_last_focused_window space ws w).active_workspace space' =
      v.active_workspace space' := by
  unfold set_last_focused_window active_workspace
  cases hg : getA v.spaces space with
  | none => rfl
  | some sw =>
    dsimp only
    by_cases hsp : space = space'
    · subst hsp
      rw [getA_putA, hg]
      rfl
    · rw [getA_putA_ne _ _ hsp]

end VirtualWorkspaceManager


namespace LayoutEngine

/-- On an exposed space (active workspace and active layout both present),
`layout()` is pure: it returns the stored layout id and changes nothing. -/
theorem layoutFor_exposed (e : LayoutEngine) (space : SpaceId)
    {ws : WorkspaceId} {lid : LayoutId}
    (hws : e.virtual_workspace_manager.active_workspace space = some ws)
    (hlid : e.workspace_layouts.active space ws = some lid) :
    e.layoutFor space = (e, lid) := by
  unfold layoutFor
  rw [hws]
  dsimp only
  rw [hlid]

/-- One `ScrollWorkspace { delta, finalize := true }` command on an exposed
scroll-mode space, from a committed layout state with a selection at index
`i`, when the delta lands exactly on the in-range index `j`: the layout
keeps its window strip, ends with the window at `j` selected and committed,
and the engine's routing state (settings, layout table, active workspace)
is untouched. -/
theorem handle_scroll_workspace_exact (e : LayoutEngine) (space : SpaceId)
    {ws : WorkspaceId} {lid : LayoutId}
    {layouts : List (LayoutId × ScrollLayoutState)} {s : ScrollLayoutState}
    {sel : WindowId} {i j : Nat} {delta : ℚ}
    (hws : e.virtual_workspace_manager.active_workspace space = some ws)
    (hlid : e.workspace_layouts.active space ws = some lid)
    (htree : e.tree = .scroll layouts)
    (hs : getA layouts lid = some s)
    (hc : s.committed) (hsel : s.selected = some sel)
    (hp : listPos s.windows sel = some i)
    (hsnap : 0 < e.scroll_settings.snap_threshold)
    (hj : j < s.windows.length) (hd : (i : ℚ) + delta = (j : ℚ))
    (hne : EPSILON < |delta|) :
    ∃ layouts2 s2,
      (e.handle_scroll_workspace (some space) delta true).1.tree
          = .scroll layouts2 ∧
      getA layouts2 lid = some s2 ∧
      s2.windows = s.windows ∧
      s2.selected = some (s.windows.getD j Inhabited.default) ∧
      s2.committed ∧
      (e.handle_scroll_workspace (some space) delta true).1.scroll_settings
          = e.scroll_settings ∧
      (e.handle_scroll_workspace (some space) delta true).1.workspace_layouts
          = e.workspace_layouts ∧
      ((e.handle_scroll_workspace (some space) delta true).1.virtual_workspace_manager).active_workspace space = some ws := by
  have hlf := layoutFor_exposed e space hws hlid
  have hnd : s.windows.Nodup := hc.1
  have hjp : listPos s.windows (s.windows.getD j Inhabited.default) = some j :=
    listPos_getD_of_nodup hnd hj _
  cases hsb : s.scroll_by e.scroll_settings delta with
  | mk s1 r1 =>
  have hs1 : s1 = { s.ensure_widths e.scroll_settings.default_window_r with
      selected := some (s.windows.getD j Inhabited.default),
      scroll_offset := (j : ℚ) } := by
    have hx := ScrollLayoutState.scroll_by_exact hc hsel hp e.scroll_settings hsnap hj hd
    rw [hsb] at hx
    exact hx
  have hs1w : s1.windows = s.windows := by rw [hs1]; simp
  have hs1sel : s1.selected = some (s.windows.getD j Inhabited.default) := by
    rw [hs1]
  have hs1p : listPos s1.windows (s.windows.getD j Inhabited.default)
      = some j := by rw [hs1w]; exact hjp
  have hc1 : s1.committed := by
    refine ScrollLayoutState.committed_mk (by rw [hs1w]; exact hnd) hs1sel hs1p ?_
    rw [hs1]
  cases hfz : s1.finalize_scroll e.scroll_settings with
  | mk s2 r2 =>
  have hfe := ScrollLayoutState.finalize_scroll_exact hc1 hs1sel hs1p e.scroll_settings hsnap
  rw [hfz] at hfe
  obtain ⟨hs2, hr2⟩ := hfe
  dsimp only at hs2 hr2
  have hs2w : s2.windows = s.windows := by rw [hs2]; simpa using hs1w
  have hs2sel : s2.selected = some (s.windows.getD j Inhabited.default) := by
    rw [hs2]
  have hs2p : listPos s2.windows (s.windows.getD j Inhabited.default)
      = some j := by rw [hs2w]; exact hjp
  have hc2 : s2.committed := by
    refine ScrollLayoutState.committed_mk (by rw [hs2w]; exact hnd) hs2sel hs2p ?_
    rw [hs2]
  refine ⟨putA (putA layouts lid s1) lid s2, s2, ?_⟩
  unfold handle_scroll_workspace
  dsimp only
  rw [hlf]
  dsimp only
  rw [hws]
  dsimp only
  rw [hlid]
  dsimp only
  rw [htree]
  dsimp only
  rw [if_pos hne]
  unfold sysScrollBy
  rw [hs]
  dsimp only
  rw [hsb]
  dsimp only
  rw [if_pos rfl]
  unfold sysFinalizeScroll
  rw [getA_putA]
  dsimp only
  rw [hfz]
  dsimp only
  cases r1 with
  | none =>
    have hin : ((none : Option WindowId).isNone) = true := rfl
    rw [if_pos hin]
    unfold LayoutSystemKind.selected_window
    dsimp only
    rw [getA_putA]
    dsimp only [Option.some_bind]
    rw [hs2sel]
    exact ⟨rfl, rfl, hs2w, rfl, hc2, rfl, rfl, by
      rw [VirtualWorkspaceManager.active_workspace_set_last_focused]
      exact hws⟩
  | some w =>
    have hin : ¬(((some w : Option WindowId).isNone) = true) := by simp
    rw [if_neg hin]
    dsimp only
    exact ⟨rfl, getA_putA _ _ _, hs2w, hs2sel, hc2, rfl, rfl, by
      rw [VirtualWorkspaceManager.active_workspace_set_last_focused]
      exact hws⟩

end LayoutEngine


namespace VirtualWorkspaceManager

/-- `list_workspaces` on a space that already has a nonempty workspace list
returns it unchanged. -/
theorem list_workspaces_stable {v : VirtualWorkspaceManager} {space : SpaceId}
    {sw : SpaceWorkspaces} (hg : getA v.spaces space = some sw)
    (hne : sw.workspaces ≠ []) :
    v.list_workspaces space = (v, sw.workspaces) := by
  unfold list_workspaces
  rw [hg]
  dsimp only
  rw [if_neg hne]

/-- After any `list_workspaces` call the space has an entry whose (nonempty)
workspace list is the returned one. -/
theorem list_workspaces_spec (v : VirtualWorkspaceManager) (space : SpaceId) :
    ∃ sw2, getA (v.list_workspaces space).1.spaces space = some sw2 ∧
      sw2.workspaces = (v.list_workspaces space).2 ∧
      sw2.workspaces ≠ [] := by
  unfold list_workspaces
  cases hg : getA v.spaces space with
  | none =>
    dsimp only
    exact ⟨_, getA_putA _ _ _, rfl, by simp⟩
  | some sw =>
    dsimp only
    by_cases hne : sw.workspaces = []
    · rw [if_pos hne]
      dsimp only
      exact ⟨_, getA_putA _ _ _, rfl, by simp⟩
    · rw [if_neg hne]
      exact ⟨sw, hg, rfl, hne⟩

/-- The active workspace is the `active` field of the space's entry. -/
theorem active_workspace_eq_of_entry {v : VirtualWorkspaceManager}
    {space : SpaceId} {sw : SpaceWorkspaces}
    (hg : getA v.spaces space = some sw) :
    v.active_workspace space = sw.active := by
  unfold active_workspace
  rw [hg]
  rfl

/-- The entry written by `set_active_workspace`. -/
theorem set_active_workspace_entry {v : VirtualWorkspaceManager}
    {space : SpaceId} {sw : SpaceWorkspaces}
    (hg : getA v.spaces space = some sw) (ws : WorkspaceId) :
    getA (v.set_active_workspace space ws).spaces space
      = some { sw with active := some ws } := by
  unfold set_active_workspace
  rw [hg]
  dsimp only
  exact getA_putA _ _ _

/-- The entry written by `set_last_focused_window`. -/
theorem set_last_focused_entry {v : VirtualWorkspaceManager}
    {space : SpaceId} {sw : SpaceWorkspaces}
    (hg : getA v.spaces space = some sw) (ws : WorkspaceId)
    (w : Option WindowId) :
    getA (v.set_last_focused_window space ws w).spaces space
      = some { sw with lastFocused := putA sw.lastFocused ws w } := by
  unfold set_last_focused_window
  rw [hg]
  dsimp only
  exact getA_putA _ _ _

end VirtualWorkspaceManager

namespace LayoutEngine

/-- `refocus_workspace` only touches the virtual-workspace manager through
one `set_last_focused_window` write. -/
theorem refocus_workspace_vwm (e : LayoutEngine) (space : SpaceId)
    (ws : WorkspaceId) :
    ∃ x, ((e.refocus_workspace space ws).1).virtual_workspace_manager =
      e.virtual_workspace_manager.set_last_focused_window space ws x := by
  unfold refocus_workspace
  dsimp only
  split
  · split
    · exact ⟨_, rfl⟩
    · split
      · exact ⟨_, rfl⟩
      · exact ⟨_, rfl⟩
  · exact ⟨_, rfl⟩

/-- A `SwitchToWorkspace(i)` with `i` out of range of an already-populated
workspace list leaves the engine unchanged. -/
theorem switch_to_workspace_again_oob (E : LayoutEngine) (space : SpaceId)
    (i : Nat) {sw : SpaceWorkspaces}
    (hg : getA E.virtual_workspace_manager.spaces space = some sw)
    (hne : sw.workspaces ≠ []) (hi : sw.workspaces[i]? = none) :
    E.switch_to_workspace space i = (E, {}) := by
  unfold switch_to_workspace
  rw [VirtualWorkspaceManager.list_workspaces_stable hg hne]
  dsimp only
  rw [hi]

/-- A `SwitchToWorkspace(i)` that targets the already-active workspace of an
already-populated space leaves the engine unchanged. -/
theorem switch_to_workspace_again_active (E : LayoutEngine) (space : SpaceId)
    (i : Nat) {sw : SpaceWorkspaces} {wsid : WorkspaceId}
    (hg : getA E.virtual_workspace_manager.spaces space = some sw)
    (hne : sw.workspaces ≠ []) (hi : sw.workspaces[i]? = some wsid)
    (hact : sw.active = some wsid) :
    E.switch_to_workspace space i = (E, {}) := by
  unfold switch_to_workspace
  rw [VirtualWorkspaceManager.list_workspaces_stable hg hne]
  dsimp only
  rw [hi]
  dsimp only
  have ha : E.virtual_workspace_manager.active_workspace space = some wsid := by
    rw [VirtualWorkspaceManager.active_workspace_eq_of_entry hg]
    exact hact
  rw [if_pos ha]

/-- After any first `SwitchToWorkspace(i)`, the space has a populated entry
and `i` either misses the list or names the (now) active workspace. -/
theorem switch_to_workspace_first (e : LayoutEngine) (space : SpaceId)
    (i : Nat) :
    ∃ sw, getA ((e.switch_to_workspace space i).1).virtual_workspace_manager.spaces space = some sw ∧
      sw.workspaces ≠ [] ∧
      (sw.workspaces[i]? = none ∨
        ∃ wsid, sw.workspaces[i]? = some wsid ∧ sw.active = some wsid) := by
  obtain ⟨sw2, hg2, hw2, hne2⟩ :=
    VirtualWorkspaceManager.list_workspaces_spec e.virtual_workspace_manager
      space
  unfold switch_to_workspace
  cases hlw : e.virtual_workspace_manager.list_workspaces space with
  | mk v2 wss =>
  rw [hlw] at hg2 hw2
  dsimp only at hg2 hw2
  dsimp only
  cases hi : wss[i]? with
  | none =>
    dsimp only
    exact ⟨sw2, hg2, hne2, Or.inl (by rw [hw2]; exact hi)⟩
  | some wsid =>
    dsimp only
    by_cases hact : v2.active_workspace space = some wsid
    · rw [if_pos hact]
      refine ⟨sw2, hg2, hne2, Or.inr ⟨wsid, by rw [hw2]; exact hi, ?_⟩⟩
      rw [VirtualWorkspaceManager.active_workspace_eq_of_entry hg2] at hact
      exact hact
    · rw [if_neg hact]
      obtain ⟨x, hvwm⟩ := refocus_workspace_vwm
        (({ e with virtual_workspace_manager :=
            v2.set_active_workspace space wsid }).update_active_floating_windows
          space) space wsid
      rw [hvwm]
      have hE0 : (({ e with virtual_workspace_manager :=
          v2.set_active_workspace space wsid }).update_active_floating_windows
            space).virtual_workspace_manager
          = v2.set_active_workspace space wsid := rfl
      rw [hE0]
      have hg3 := VirtualWorkspaceManager.set_active_workspace_entry hg2 wsid
      have hg4 := VirtualWorkspaceManager.set_last_focused_entry hg3 wsid x
      refine ⟨_, hg4, ?_, Or.inr ⟨wsid, ?_, rfl⟩⟩
      · show sw2.workspaces ≠ []
        exact hne2
      · show sw2.workspaces[i]? = some wsid
        rw [hw2]
        exact hi

end LayoutEngine


/-! ### Claim theorems: engine-level claims -/

/-- C5: issuing `SwitchToWorkspace(i)` twice in a row on the same space is a
no-op — the second invocation returns the engine (active workspace, focus
state and layouts included) unchanged, with the default empty response. -/
theorem c5_switch_to_workspace_idempotent (e : LayoutEngine) (space : SpaceId)
    (i : Nat) :
    ((e.switch_to_workspace space i).1).switch_to_workspace space i
      = ((e.switch_to_workspace space i).1, {}) := by
  obtain ⟨sw, hg, hne, hcase⟩ := LayoutEngine.switch_to_workspace_first e space i
  rcases hcase with hi | ⟨wsid, hi, hact⟩
  · exact LayoutEngine.switch_to_workspace_again_oob _ space i hg hne hi
  · exact LayoutEngine.switch_to_workspace_again_active _ space i hg hne hi hact

unseal Rat.add Rat.sub Rat.mul Rat.inv Rat.ofScientific in
/-- C7: in scroll mode with three windows, `snap_threshold = 0.5` and the
selection at index 0, `ScrollWorkspace {delta := 0.49, finalize := false}`
keeps the selection on the first window, and a further
`ScrollWorkspace {delta := 0.02, finalize := false}` crosses the threshold
and selects the second window. -/
theorem c7_scroll_snap_threshold :
    (((exEngine exStrip3).handle_scroll_workspace (some 0) (49/100)
        false).1.tree.selected_window 1 = some exW0) ∧
    ((((exEngine exStrip3).handle_scroll_workspace (some 0) (49/100)
        false).1.handle_scroll_workspace (some 0) (2/100)
        false).1.tree.selected_window 1 = some exW1) := by
  decide

unseal Rat.add Rat.sub Rat.mul Rat.inv Rat.ofScientific in
/-- C6 is refuted as stated: with two windows and the selection starting on
the second window (index 1), `ScrollWorkspace {delta := +1, finalize}`
followed by `ScrollWorkspace {delta := -1, finalize}` leaves the selection
on the first window, not the starting one — the first scroll is clamped at
the end of the strip, so the second scroll undershoots. -/
theorem c6_counterexample :
    exStrip2.selected = some exW1 ∧
    ((((exEngine exStrip2).handle_scroll_workspace (some 0) 1
        true).1.handle_scroll_workspace (some 0) (-1)
        true).1.tree.selected_window 1 = some exW0) ∧
    exW0 ≠ exW1 := by
  decide

/-- C6 (amended): in scroll mode on an exposed space, from a committed
layout whose selection sits at index `i`, for a nonzero integer delta `n`
with `i + n` still inside the strip,
`ScrollWorkspace {delta := n, finalize := true}` followed by
`ScrollWorkspace {delta := -n, finalize := true}` returns the selection to
the starting window. -/
theorem c6_amended_scroll_round_trip (e : LayoutEngine) (space : SpaceId)
    (ws : WorkspaceId) (lid : LayoutId)
    (layouts : List (LayoutId × ScrollLayoutState)) (s : ScrollLayoutState)
    (sel : WindowId) (i : Nat) (n : ℤ)
    (hws : e.virtual_workspace_manager.active_workspace space = some ws)
    (hlid : e.workspace_layouts.active space ws = some lid)
    (htree : e.tree = .scroll layouts)
    (hs : getA layouts lid = some s)
    (hc : s.committed) (hsel : s.selected = some sel)
    (hp : listPos s.windows sel = some i)
    (hsnap : 0 < e.scroll_settings.snap_threshold)
    (hn0 : n ≠ 0) (hlo : 0 ≤ (i : ℤ) + n)
    (hhi : (i : ℤ) + n < s.windows.length) :
    (((e.handle_scroll_workspace (some space) (n : ℚ)
        true).1).handle_scroll_workspace (some space) (-(n : ℚ))
        true).1.tree.selected_window lid = some sel := by
  set j := ((i : ℤ) + n).toNat with hjdef
  have hjz : ((j : ℤ)) = (i : ℤ) + n := Int.toNat_of_nonneg hlo
  have hj : j < s.windows.length := by omega
  have hd : (i : ℚ) + (n : ℚ) = (j : ℚ) := by
    have : ((j : ℤ) : ℚ) = (((i : ℤ) + n : ℤ) : ℚ) := by rw [hjz]
    push_cast at this
    linarith
  have habs : (1 : ℚ) ≤ |(n : ℚ)| := by
    have h1 : (1 : ℤ) ≤ |n| := Int.one_le_abs hn0
    calc (1 : ℚ) ≤ ((|n| : ℤ) : ℚ) := by exact_mod_cast h1
      _ = |(n : ℚ)| := by push_cast; rfl
  have hne : EPSILON < |(n : ℚ)| := by
    refine lt_of_lt_of_le ?_ habs
    unfold EPSILON
    norm_num
  obtain ⟨layouts2, s2, ht2, hg2, hw2, hsel2, hc2, hss2, hwl2, hvw2⟩ :=
    LayoutEngine.handle_scroll_workspace_exact e space hws hlid htree hs hc
      hsel hp hsnap hj hd hne
  have hp2 : listPos s2.windows (s.windows.getD j Inhabited.default)
      = some j := by
    rw [hw2]
    exact listPos_getD_of_nodup hc.1 hj _
  have hsnap2 : 0 < (e.handle_scroll_workspace (some space) (n : ℚ)
      true).1.scroll_settings.snap_threshold := by
    rw [hss2]
    exact hsnap
  have hlid2 : (e.handle_scroll_workspace (some space) (n : ℚ)
      true).1.workspace_layouts.active space ws = some lid := by
    rw [hwl2]
    exact hlid
  have hi2 : i < s2.windows.length := by
    rw [hw2]
    exact listPos_some_lt hp
  have hd2 : (j : ℚ) + (-(n : ℚ)) = (i : ℚ) := by linarith
  have hne2 : EPSILON < |(-(n : ℚ))| := by
    rw [abs_neg]
    exact hne
  obtain ⟨layouts3, s3, ht3, hg3, hw3, hsel3, hc3, hss3, hwl3, hvw3⟩ :=
    LayoutEngine.handle_scroll_workspace_exact
      (e.handle_scroll_workspace (some space) (n : ℚ) true).1 space hvw2 hlid2
      ht2 hg2 hc2 hsel2 hp2 hsnap2 hi2 hd2 hne2
  rw [ht3]
  show (getA layouts3 lid).bind (fun st => st.selected) = some sel
  rw [hg3]
  show s3.selected = some sel
  rw [hsel3, hw2, listPos_some_getD hp]

/-- C10: on an exposed space whose engine runs the traditional or BSP
system, a `ScrollWorkspace {delta, finalize}` command changes nothing: the
engine is returned unchanged together with the default empty response. -/
theorem c10_scroll_command_noop_nonscroll (e : LayoutEngine) (space : SpaceId)
    (ws : WorkspaceId) (lid : LayoutId) (delta : ℚ) (fin : Bool)
    (hws : e.virtual_workspace_manager.active_workspace space = some ws)
    (hlid : e.workspace_layouts.active space ws = some lid)
    (htree : (∃ n, e.tree = .traditional n) ∨ (∃ n, e.tree = .bsp n)) :
    e.handle_scroll_workspace (some space) delta fin = (e, {}) := by
  have hlf := LayoutEngine.layoutFor_exposed e space hws hlid
  unfold LayoutEngine.handle_scroll_workspace
  dsimp only
  rw [hlf]
  dsimp only
  rw [hws]
  dsimp only
  rw [hlid]
  dsimp only
  obtain ⟨n, ht⟩ | ⟨n, ht⟩ := htree <;> rw [ht]


unseal Rat.add Rat.sub Rat.mul Rat.inv Rat.ofScientific in
/-- Witness for the amended C6 theorem: a concrete three-window engine,
selection at index 0, delta `+2` then `-2`. -/
theorem c6_amended_scroll_round_trip_witness :
    (((exEngine exStrip3).handle_scroll_workspace (some 0) ((2 : ℤ) : ℚ)
        true).1.handle_scroll_workspace (some 0) (-((2 : ℤ) : ℚ))
        true).1.tree.selected_window 1 = some exW0 :=
  c6_amended_scroll_round_trip (exEngine exStrip3) 0 5 1 [(1, exStrip3)]
    exStrip3 exW0 0 2 (by decide) (by decide) rfl (by decide) (by decide) rfl
    (by decide) (by decide) (by decide) (by decide) (by decide)

/-- Witness for C10: a concrete engine in traditional mode ignores a
`ScrollWorkspace` command. -/
theorem c10_scroll_command_noop_nonscroll_witness :
    ({ exEngine exStrip3 with
        tree := .traditional 0 } : LayoutEngine).handle_scroll_workspace
        (some 0) (49/100) true
      = ({ exEngine exStrip3 with tree := .traditional 0 }, {}) :=
  c10_scroll_command_noop_nonscroll _ 0 5 1 (49/100) true (by decide)
    (by decide) (Or.inl ⟨0, rfl⟩)


/-! ### Claim theorems: reactor-level claims -/

/-- C9: the `ApplicationThreadTerminated(pid)` arm removes only the stored
app handle (plus a WM-controller notification): no layout event and no
engine command is emitted and no layout pass is requested, so the layout
engine — and with it every workspace assignment of that application's
windows — is unchanged. -/
theorem c9_thread_terminated_removes_handle_only (r : Reactor) (pid : Int) :
    (r.handle_application_thread_terminated pid).1
      = { r with apps := r.apps.filter (fun p => p != pid) } ∧
    (r.handle_application_thread_terminated pid).1.layout_engine
      = r.layout_engine ∧
    (r.handle_application_thread_terminated pid).1.windows = r.windows ∧
    (r.handle_application_thread_terminated pid).2
      = [.wmAppThreadTerminated pid] ∧
    ∀ e ∈ (r.handle_application_thread_terminated pid).2,
      (∀ ev, e ≠ EffectM.layoutEvent ev) ∧
      (∀ c, e ≠ EffectM.engineCommand c) ∧
      e ≠ EffectM.updateLayout := by
  refine ⟨rfl, rfl, rfl, rfl, ?_⟩
  intro e he
  have he2 : e = EffectM.wmAppThreadTerminated pid := by
    simpa [Reactor.handle_application_thread_terminated] using he
  subst he2
  exact ⟨fun ev h => EffectM.noConfusion h,
    fun c h => EffectM.noConfusion h,
    fun h => EffectM.noConfusion h⟩

unseal Rat.add Rat.sub Rat.mul Rat.inv Rat.ofScientific in
/-- C1 is refuted as stated: in this state `last_seen` equals the window's
`last_sent_txid` and the stored target matches `new_frame`, yet because
the event carries `requested = true` the arm returns before consulting the
store — the model frame is not updated and the store entry is not
cleared. -/
theorem c1_counterexample :
    (getA exReactor.windows exW0).map (fun w => w.last_sent_txid) = some 7 ∧
    (exReactor.window_tx_store.bind (fun s => getA s 40)).map
        (fun rec => exFrame2.same_as rec.target) = some true ∧
    exReactor.handle_window_frame_changed exOracles exW0 exFrame2 (some 7)
        true none = (exReactor, []) ∧
    (getA exReactor.windows exW0).map (fun w => w.frame_monotonic)
      = some exFrame ∧
    exFrame ≠ exFrame2 ∧
    (exReactor.window_tx_store.bind (fun s => getA s 40)).isSome = true := by
  decide


/-- C1 (amended): on `WindowFrameChanged(wid, new_frame, last_seen,
requested, mouse_state)` for a known window, with mission control inactive
and the window not changing screens: (1) a `last_seen` different from the
window's `last_sent_txid` drops the event with no state change; (2) with
the current `last_seen` and a stored target that does not match
`new_frame`, the event is ignored with no state change; (3) with the
current `last_seen`, `requested = false`, and a stored target matching
`new_frame`, the model frame is set to `new_frame` and the store entry is
cleared. -/
theorem c1_amended_frame_transaction (r : Reactor) (o : ReactorOracles)
    (wid : WindowId) (new_frame : Frame) (window : WindowState)
    (hw : getA r.windows wid = some window)
    (hmc : r.mission_control_active = false)
    (hcs : (window.window_server_id.map
        (fun wsid => r.changing_screens.contains wsid)).getD false = false) :
    (∀ seen requested ms, seen ≠ window.last_sent_txid →
      r.handle_window_frame_changed o wid new_frame (some seen) requested ms
        = (r, [])) ∧
    (∀ requested ms store wsid rec, r.window_tx_store = some store →
      window.window_server_id = some wsid → getA store wsid = some rec →
      new_frame.same_as rec.target = false →
      r.handle_window_frame_changed o wid new_frame
          (some window.last_sent_txid) requested ms = (r, [])) ∧
    (∀ ms store wsid rec, r.window_tx_store = some store →
      window.window_server_id = some wsid → getA store wsid = some rec →
      new_frame.same_as rec.target = true →
      ∃ r2, r.handle_window_frame_changed o wid new_frame
          (some window.last_sent_txid) false ms = (r2, []) ∧
        getA r2.windows wid
          = some { window with frame_monotonic := new_frame } ∧
        r2.window_tx_store = some (eraseA store wsid)) := by
  have hgate : ¬(r.mission_control_active = true ∨
      ((window.window_server_id.map
        (fun wsid => r.changing_screens.contains wsid)).getD false) = true) := by
    rw [hmc, hcs]
    simp
  refine ⟨?_, ?_, ?_⟩
  · intro seen requested ms hne
    unfold Reactor.handle_window_frame_changed
    rw [hw]
    dsimp only
    rw [if_neg hgate]
    have hstale : ((some seen).map
        (fun s => s != window.last_sent_txid)).getD false = true := by
      simp [hne]
    rw [if_pos hstale]
  · intro requested ms store wsid rec hst hwsid hrec hmm
    unfold Reactor.handle_window_frame_changed
    rw [hw]
    dsimp only
    rw [if_neg hgate]
    have hstale : ¬(((some window.last_sent_txid).map
        (fun s => s != window.last_sent_txid)).getD false = true) := by
      simp
    rw [if_neg hstale]
    by_cases hreq : requested = true
    · rw [if_pos hreq]
    · rw [if_neg hreq]
      have htrig : ((some window.last_sent_txid).map
          (fun s => s == window.last_sent_txid)).getD false = true := by
        simp
      rw [if_pos htrig, hst, hwsid]
      dsimp only
      rw [hrec]
      dsimp only
      rw [if_neg (by rw [hmm]; exact Bool.false_ne_true)]
  · intro ms store wsid rec hst hwsid hrec hsame
    unfold Reactor.handle_window_frame_changed
    rw [hw]
    dsimp only
    rw [if_neg hgate]
    have hstale : ¬(((some window.last_sent_txid).map
        (fun s => s != window.last_sent_txid)).getD false = true) := by
      simp
    rw [if_neg hstale]
    rw [if_neg (Bool.false_ne_true)]
    have htrig : ((some window.last_sent_txid).map
        (fun s => s == window.last_sent_txid)).getD false = true := by
      simp
    rw [if_pos htrig, hst, hwsid]
    dsimp only
    rw [hrec]
    dsimp only
    rw [if_pos hsame]
    by_cases hfm : window.frame_monotonic.same_as new_frame = true
    · rw [if_neg (by rw [hfm]; simp)]
      have hfe : window.frame_monotonic = new_frame := by
        have := hfm
        unfold Frame.same_as at this
        exact eq_of_beq this
      refine ⟨_, rfl, ?_, rfl⟩
      rw [hw, ← hfe, ← hwsid]
    · rw [if_pos (by rw [Bool.not_eq_true] at hfm; rw [hfm]; simp)]
      exact ⟨_, rfl, by rw [getA_putA], rfl⟩


unseal Rat.add Rat.sub Rat.mul Rat.inv Rat.ofScientific in
/-- Witness for the amended C1 theorem: the accept-and-clear case at the
concrete two-window reactor. -/
theorem c1_amended_frame_transaction_witness :
    ∃ r2, exReactor.handle_window_frame_changed exOracles exW0 exFrame2
        (some 7) false none = (r2, []) ∧
      getA r2.windows exW0 = some { frame_monotonic := exFrame2, last_sent_txid := 7, window_server_id := some 40 } ∧
      r2.window_tx_store
        = some (eraseA [(40, { txid := 7, target := exFrame2 })] 40) :=
  (c1_amended_frame_transaction exReactor exOracles exW0 exFrame2
      { frame_monotonic := exFrame, last_sent_txid := 7,
        window_server_id := some 40 }
      (by decide) (by decide) (by decide)).2.2
    none [(40, { txid := 7, target := exFrame2 })] 40
    { txid := 7, target := exFrame2 }
    (by decide) (by decide) (by decide) (by decide)

namespace Reactor

/-- Both effects of `send_layout_event` are a layout event and a layout
response. -/
theorem send_layout_event_effects (r : Reactor) (o : ReactorOracles)
    (ev : LayoutEventM) :
    ∀ x ∈ (r.send_layout_event o ev).2,
      (∃ resp, x = EffectM.layoutResponse resp) ∨
      (∃ ev2, x = EffectM.layoutEvent ev2) := by
  intro x hx
  unfold send_layout_event at hx
  dsimp only at hx
  rcases List.mem_cons.mp hx with rfl | hx
  · exact Or.inr ⟨_, rfl⟩
  · rcases List.mem_cons.mp hx with rfl | hx
    · exact Or.inl ⟨_, rfl⟩
    · cases hx

/-- `finalize_active_drag` leaves the pending swap pair alone. -/
theorem finalize_active_drag_pending (r : Reactor) (o : ReactorOracles) :
    (r.finalize_active_drag o).1.pending_drag_swap = r.pending_drag_swap := by
  unfold finalize_active_drag send_layout_event
  dsimp only
  repeat' split
  all_goals rfl

/-- All effects of `finalize_active_drag` are layout events or layout
responses. -/
theorem finalize_active_drag_effects (r : Reactor) (o : ReactorOracles) :
    ∀ x ∈ (r.finalize_active_drag o).2.1,
      (∃ resp, x = EffectM.layoutResponse resp) ∨
      (∃ ev, x = EffectM.layoutEvent ev) := by
  unfold finalize_active_drag
  split
  · intro x hx
    cases hx
  · dsimp only
    split
    · dsimp only
      intro x hx
      rw [List.mem_append] at hx
      rcases hx with hx | hx
      · revert hx
        split
        · exact fun hx => send_layout_event_effects _ o _ x hx
        · intro hx
          cases hx
      · revert hx
        split
        · split <;> exact fun hx => send_layout_event_effects _ o _ x hx
        · intro hx
          cases hx
    · split
      · intro x hx
        cases hx
      · intro x hx
        cases hx

end Reactor

/-- C4: during a drag, `maybe_swap_on_drag` only updates the swap
bookkeeping (the pending pair, the skip-layout hint and the drag-manager
state) — in particular it never mutates the layout engine or the window
model; and on `MouseUp` with a pending pair `(A, B)` whose two windows
both still exist, the arm issues exactly one `SwapWindows(A, B)` engine
command, followed (after the drag-finalisation layout events) by exactly
one layout pass. -/
theorem c4_drag_swap_deferred (r : Reactor) (o : ReactorOracles)
    (wid : WindowId) (f : Frame) (A B : WindowId)
    (hpend : r.pending_drag_swap = some (A, B))
    (hA : (getA r.windows A).isSome = true)
    (hB : (getA r.windows B).isSome = true) :
    ((r.maybe_swap_on_drag o wid f).layout_engine = r.layout_engine ∧
     (r.maybe_swap_on_drag o wid f).windows = r.windows ∧
     (r.maybe_swap_on_drag o wid f).apps = r.apps ∧
     (r.maybe_swap_on_drag o wid f).screens = r.screens ∧
     (r.maybe_swap_on_drag o wid f).window_tx_store = r.window_tx_store ∧
     (r.maybe_swap_on_drag o wid f).pending_space_change
        = r.pending_space_change ∧
     (r.maybe_swap_on_drag o wid f).active_drag = r.active_drag ∧
     (r.maybe_swap_on_drag o wid f).in_drag = r.in_drag) ∧
    (∃ r2 mid, r.handle_mouse_up o
        = (r2, .engineCommand (.swapWindows A B) :: (mid ++ [.updateLayout])) ∧
      (∀ x ∈ mid, (∃ resp, x = EffectM.layoutResponse resp) ∨
        (∃ ev, x = EffectM.layoutEvent ev)) ∧
      r2.pending_drag_swap = none) := by
  constructor
  · unfold Reactor.maybe_swap_on_drag Reactor.maybe_swap_core
    dsimp only
    repeat' split
    all_goals exact ⟨rfl, rfl, rfl, rfl, rfl, rfl, rfl, rfl⟩
  · have tail : ∀ (rq : Reactor) (resp : EventResponse),
        rq.pending_drag_swap = none →
        ∃ r2 mid,
          (({ { (rq.finalize_active_drag o).1 with
                dm := { originFrame := none, lastTarget := none } } with
              skip_layout_for_window := none } : Reactor),
            [EffectM.engineCommand (.swapWindows A B),
             EffectM.layoutResponse resp]
              ++ ((rq.finalize_active_drag o).2.1
                ++ (if (true || (rq.finalize_active_drag o).2.2) = true then
                      [EffectM.updateLayout] else [])))
          = (r2, .engineCommand (.swapWindows A B)
              :: (mid ++ [.updateLayout])) ∧
          (∀ x ∈ mid, (∃ resp2, x = EffectM.layoutResponse resp2) ∨
            (∃ ev, x = EffectM.layoutEvent ev)) ∧
          r2.pending_drag_swap = none := by
      intro rq resp hq
      refine ⟨{ { (rq.finalize_active_drag o).1 with dm := { originFrame := none, lastTarget := none } } with skip_layout_for_window := none }, EffectM.layoutResponse resp :: (rq.finalize_active_drag o).2.1, ?_, ?_, ?_⟩
      · rw [Bool.true_or]
        simp
      · intro x hx
        rcases List.mem_cons.mp hx with rfl | hx
        · exact Or.inl ⟨_, rfl⟩
        · exact Reactor.finalize_active_drag_effects rq o x hx
      · show (rq.finalize_active_drag o).1.pending_drag_swap = none
        rw [Reactor.finalize_active_drag_pending]
        exact hq
    unfold Reactor.handle_mouse_up
    dsimp only
    rw [hpend]
    dsimp only
    rw [if_pos ⟨hA, hB⟩]
    dsimp only
    exact tail _ _ rfl


unseal Rat.add Rat.sub Rat.mul Rat.inv Rat.ofScientific in
/-- Witness for C4: the concrete reactor with pending pair
`(exW0, exW1)`. -/
theorem c4_drag_swap_deferred_witness :
    ((exReactorDrag.maybe_swap_on_drag exOracles exW0 exFrame).layout_engine
        = exReactorDrag.layout_engine ∧
     (exReactorDrag.maybe_swap_on_drag exOracles exW0 exFrame).windows
        = exReactorDrag.windows ∧
     (exReactorDrag.maybe_swap_on_drag exOracles exW0 exFrame).apps
        = exReactorDrag.apps ∧
     (exReactorDrag.maybe_swap_on_drag exOracles exW0 exFrame).screens
        = exReactorDrag.screens ∧
     (exReactorDrag.maybe_swap_on_drag exOracles exW0 exFrame).window_tx_store
        = exReactorDrag.window_tx_store ∧
     (exReactorDrag.maybe_swap_on_drag exOracles exW0 exFrame).pending_space_change
        = exReactorDrag.pending_space_change ∧
     (exReactorDrag.maybe_swap_on_drag exOracles exW0 exFrame).active_drag
        = exReactorDrag.active_drag ∧
     (exReactorDrag.maybe_swap_on_drag exOracles exW0 exFrame).in_drag
        = exReactorDrag.in_drag) ∧
    (∃ r2 mid, exReactorDrag.handle_mouse_up exOracles
        = (r2, .engineCommand (.swapWindows exW0 exW1)
            :: (mid ++ [.updateLayout])) ∧
      (∀ x ∈ mid, (∃ resp, x = EffectM.layoutResponse resp) ∨
        (∃ ev, x = EffectM.layoutEvent ev)) ∧
      r2.pending_drag_swap = none) :=
  c4_drag_swap_deferred exReactorDrag exOracles exW0 exFrame exW0 exW1
    (by decide) (by decide) (by decide)


theorem foldl_fixed {α β : Type} (f : β → α → β) (b : β)
    (h : ∀ x, f b x = b) : ∀ l : List α, l.foldl f b = b := by
  intro l
  induction l with
  | nil => rfl
  | cons x xs ih =>
    rw [List.foldl_cons, h]
    exact ih

namespace Reactor

/-- With no fullscreen space in sight and no tracked fullscreen
transition, `handle_fullscreen_space_transition` is a no-op. -/
theorem fullscreen_transition_none (r : Reactor) (o : ReactorOracles)
    (spaces : List (Option SpaceId))
    (hfs : ∀ sp ∈ spaces, (sp.map o.spaceIsFullscreen).getD false = false)
    (hfb : r.fullscreen_by_space = []) :
    r.handle_fullscreen_space_transition o spaces = (r, [], false, spaces) := by
  unfold handle_fullscreen_space_transition
  dsimp only
  have hsaw : (spaces.any (fun s => (s.map o.spaceIsFullscreen).getD false))
      = false := by
    rw [List.any_eq_false]
    intro s hs
    rw [hfs s hs]
    exact Bool.false_ne_true
  rw [hsaw, Bool.false_and, if_neg Bool.false_ne_true]
  have hmap : spaces.map (fun s =>
      match s with
      | some sp => if o.spaceIsFullscreen sp then none else some sp
      | none => none) = spaces := by
    conv_rhs => rw [← List.map_id spaces]
    apply List.map_congr_left
    intro s hs
    cases s with
    | none => rfl
    | some sp =>
      have h2 := hfs _ hs
      simp only [Option.map_some', Option.getD_some] at h2
      show (if o.spaceIsFullscreen sp then none else some sp) = some sp
      rw [if_neg (by rw [h2]; exact Bool.false_ne_true)]
  rw [hmap]
  rw [foldl_fixed]
  intro sp
  dsimp only
  rw [hfb]
  rfl

/-- One expose step keeps the pending change and the screens. -/
theorem exposeStep_fields (o : ReactorOracles) (acc : Reactor × List EffectM)
    (s : Screen) :
    (exposeStep o acc s).1.pending_space_change
        = acc.1.pending_space_change ∧
    (exposeStep o acc s).1.screens = acc.1.screens := by
  unfold exposeStep send_layout_event
  split <;> exact ⟨rfl, rfl⟩

theorem expose_fold_fields (o : ReactorOracles) (screens : List Screen) :
    ∀ acc : Reactor × List EffectM,
      (screens.foldl (exposeStep o) acc).1.pending_space_change
          = acc.1.pending_space_change ∧
      (screens.foldl (exposeStep o) acc).1.screens = acc.1.screens := by
  induction screens with
  | nil => intro acc; exact ⟨rfl, rfl⟩
  | cons s ss ih =>
    intro acc
    rw [List.foldl_cons]
    exact ⟨(ih _).1.trans (exposeStep_fields o acc s).1,
      (ih _).2.trans (exposeStep_fields o acc s).2⟩

theorem expose_all_fields (r : Reactor) (o : ReactorOracles) :
    (r.expose_all_spaces o).1.pending_space_change = r.pending_space_change ∧
    (r.expose_all_spaces o).1.screens = r.screens :=
  expose_fold_fields o r.screens (r, [])

/-- One expose step only appends effects. -/
theorem exposeStep_effects (o : ReactorOracles) (acc : Reactor × List EffectM)
    (s : Screen) : ∃ tail, (exposeStep o acc s).2 = acc.2 ++ tail := by
  unfold exposeStep send_layout_event
  split
  · exact ⟨[], (List.append_nil _).symm⟩
  · exact ⟨_, rfl⟩

theorem expose_fold_mono (o : ReactorOracles) (screens : List Screen) :
    ∀ acc : Reactor × List EffectM,
      ∃ tail, (screens.foldl (exposeStep o) acc).2 = acc.2 ++ tail := by
  induction screens with
  | nil => intro acc; exact ⟨[], (List.append_nil _).symm⟩
  | cons s ss ih =>
    intro acc
    rw [List.foldl_cons]
    obtain ⟨t1, h1⟩ := exposeStep_effects o acc s
    obtain ⟨t2, h2⟩ := ih (exposeStep o acc s)
    rw [h2, h1, List.append_assoc]
    exact ⟨_, rfl⟩

/-- Every space shown on a screen gets its `SpaceExposed` event. -/
theorem expose_fold_mem (o : ReactorOracles) (screens : List Screen) :
    ∀ (acc : Reactor × List EffectM) (s : Screen), s ∈ screens →
      ∀ sp, s.space = some sp →
      EffectM.layoutEvent (.spaceExposed sp)
        ∈ (screens.foldl (exposeStep o) acc).2 := by
  induction screens with
  | nil =>
    intro acc s hs
    cases hs
  | cons t ts ih =>
    intro acc s hs sp hsp
    rw [List.foldl_cons]
    rcases List.mem_cons.mp hs with rfl | hs2
    · obtain ⟨tail, htail⟩ := expose_fold_mono o ts (exposeStep o acc s)
      rw [htail]
      apply List.mem_append_left
      unfold exposeStep send_layout_event
      rw [hsp]
      dsimp only
      simp
    · exact ih _ s hs2 sp hsp

theorem expose_all_mem (r : Reactor) (o : ReactorOracles) :
    ∀ s ∈ r.screens, ∀ sp, s.space = some sp →
      EffectM.layoutEvent (.spaceExposed sp) ∈ (r.expose_all_spaces o).2 :=
  fun s hs sp hsp => expose_fold_mem o r.screens (r, []) s hs sp hsp

/-- `finalize_space_change` keeps the pending change slot. -/
theorem finalize_space_change_pending (r : Reactor) (o : ReactorOracles)
    (a : List (Option SpaceId)) (b : List WindowServerInfo) :
    (r.finalize_space_change o a b).1.pending_space_change
      = r.pending_space_change := by
  unfold finalize_space_change send_layout_event
  dsimp only
  split <;>
    exact (expose_all_fields
      { r with suppress_stale_window_cleanup := a.all (fun s => s.isNone) }
      o).1

/-- `finalize_space_change` keeps the screens. -/
theorem finalize_space_change_screens (r : Reactor) (o : ReactorOracles)
    (a : List (Option SpaceId)) (b : List WindowServerInfo) :
    (r.finalize_space_change o a b).1.screens = r.screens := by
  unfold finalize_space_change send_layout_event
  dsimp only
  split <;>
    exact (expose_all_fields
      { r with suppress_stale_window_cleanup := a.all (fun s => s.isNone) }
      o).2

/-- `finalize_space_change` emits a `SpaceExposed` for every space shown on
a screen. -/
theorem finalize_space_change_mem (r : Reactor) (o : ReactorOracles)
    (a : List (Option SpaceId)) (b : List WindowServerInfo) :
    ∀ s ∈ r.screens, ∀ sp, s.space = some sp →
      EffectM.layoutEvent (.spaceExposed sp)
        ∈ (r.finalize_space_change o a b).2 := by
  intro s hs sp hsp
  unfold finalize_space_change
  dsimp only
  apply List.mem_append_left
  apply List.mem_append_left
  apply List.mem_append_left
  exact expose_all_mem
    { r with suppress_stale_window_cleanup := a.all (fun s => s.isNone) }
    o s hs sp hsp

/-- `MissionControlNativeExited` never emits a layout event (in particular
no `SpaceExposed`). -/
theorem mission_control_exited_no_layout_events (r : Reactor) :
    ∀ e ∈ (r.handle_mission_control_exited).2, ∀ ev,
      e ≠ EffectM.layoutEvent ev := by
  intro e he ev
  unfold handle_mission_control_exited set_mission_control_active
    refresh_windows_after_mission_control at he
  dsimp only at he
  rw [List.mem_append] at he
  rcases he with he | he
  · revert he
    split
    · split
      · intro he
        cases he
      · intro he
        rcases List.mem_cons.mp he with rfl | he
        · exact fun h => EffectM.noConfusion h
        · cases he
    · intro he
      cases he
  · rw [List.mem_append] at he
    rcases he with he | he
    · rw [List.mem_append] at he
      rcases he with he | he
      · rcases List.mem_cons.mp he with rfl | he
        · exact fun h => EffectM.noConfusion h
        · cases he
      · obtain ⟨pid, -, rfl⟩ := List.mem_map.mp he
        exact fun h => EffectM.noConfusion h
    · rcases List.mem_cons.mp he with rfl | he
      · exact fun h => EffectM.noConfusion h
      · rcases List.mem_cons.mp he with rfl | he
        · exact fun h => EffectM.noConfusion h
        · rcases List.mem_cons.mp he with rfl | he
          · exact fun h => EffectM.noConfusion h
          · cases he

/-- `MissionControlNativeExited` leaves the stashed space change alone. -/
theorem mission_control_exited_pending (r : Reactor) :
    (r.handle_mission_control_exited).1.pending_space_change
      = r.pending_space_change := by
  unfold handle_mission_control_exited set_mission_control_active
    refresh_windows_after_mission_control
  dsimp only
  repeat' split
  all_goals rfl

end Reactor


unseal Rat.add Rat.sub Rat.mul Rat.inv Rat.ofScientific in
/-- C3 is refuted as stated: a `SpaceChanged` during mission control is
stashed in `pending_space_change`, but handling
`MissionControlNativeExited` does not commit it — the stash survives and
no `SpaceExposed` is emitted (`try_apply_pending_space_change` is only
reached from the `ScreenParametersChanged` arm). -/
theorem c3_counterexample :
    (({ exReactor with mission_control_active := true } : Reactor).handle_space_changed
        exOracles [some 2] [0]).1.pending_space_change
      = some { spaces := [some 2], ws_info := [0] } ∧
    ((({ exReactor with mission_control_active := true } : Reactor).handle_space_changed
        exOracles [some 2] [0]).1.handle_mission_control_exited).1.pending_space_change
      = some { spaces := [some 2], ws_info := [0] } ∧
    (((({ exReactor with mission_control_active := true } : Reactor).handle_space_changed
        exOracles [some 2] [0]).1.handle_mission_control_exited).2.all
      (fun e =>
        match e with
        | .layoutEvent _ => false
        | _ => true)) = true := by
  decide

/-- C3 (amended): a `SpaceChanged` during mission control stays stashed —
`MissionControlNativeExited` neither commits it nor emits any layout
event; the stash is committed by `try_apply_pending_space_change` (reached
only from the `ScreenParametersChanged` arm), which clears the stash
exactly once — afterwards a further attempt is a no-op — refreshes the
screens' spaces, and emits a `SpaceExposed` for every space then shown on
a screen. -/
theorem c3_amended_pending_space_commit (r : Reactor) (o : ReactorOracles)
    (pend : PendingSpaceChange)
    (hp : r.pending_space_change = some pend)
    (hlen : pend.spaces.length = r.screens.length)
    (hfs : ∀ sp ∈ pend.spaces, (sp.map o.spaceIsFullscreen).getD false = false)
    (hfb : r.fullscreen_by_space = []) :
    ((r.handle_mission_control_exited).1.pending_space_change = some pend ∧
     ∀ e ∈ (r.handle_mission_control_exited).2, ∀ ev,
       e ≠ EffectM.layoutEvent ev) ∧
    ((r.try_apply_pending_space_change o).1.pending_space_change = none ∧
     ((r.try_apply_pending_space_change o).1.try_apply_pending_space_change o)
        = ((r.try_apply_pending_space_change o).1, []) ∧
     ∀ s ∈ (r.try_apply_pending_space_change o).1.screens, ∀ sp,
       s.space = some sp →
       EffectM.layoutEvent (.spaceExposed sp)
         ∈ (r.try_apply_pending_space_change o).2) := by
  refine ⟨⟨?_, Reactor.mission_control_exited_no_layout_events r⟩, ?_⟩
  · rw [Reactor.mission_control_exited_pending, hp]
  · have hred : r.try_apply_pending_space_change o
        = (((({ r with pending_space_change := none } : Reactor).set_screen_spaces
              pend.spaces).finalize_space_change o pend.spaces pend.ws_info).1,
           [] ++ ((({ r with pending_space_change := none } : Reactor).set_screen_spaces
              pend.spaces).finalize_space_change o pend.spaces pend.ws_info).2) := by
      unfold Reactor.try_apply_pending_space_change
      rw [hp]
      dsimp only
      rw [if_pos hlen]
      rw [Reactor.fullscreen_transition_none
        ({ r with pending_space_change := none } : Reactor) o pend.spaces hfs
        hfb]
      rfl
    rw [hred]
    dsimp only
    have hpend2 : ((({ r with pending_space_change := none } : Reactor).set_screen_spaces
        pend.spaces).finalize_space_change o pend.spaces
          pend.ws_info).1.pending_space_change = none := by
      rw [Reactor.finalize_space_change_pending]
      rfl
    refine ⟨hpend2, ?_, ?_⟩
    · unfold Reactor.try_apply_pending_space_change
      rw [hpend2]
    · intro s hs sp hsp
      rw [List.nil_append]
      apply Reactor.finalize_space_change_mem
      · rw [Reactor.finalize_space_change_screens] at hs
        exact hs
      · exact hsp

unseal Rat.add Rat.sub Rat.mul Rat.inv Rat.ofScientific in
/-- Witness for the amended C3 theorem at the concrete reactor with a
stashed one-screen space change. -/
theorem c3_amended_pending_space_commit_witness :
    ((exReactorPending.handle_mission_control_exited).1.pending_space_change
        = some { spaces := [some 2], ws_info := [0] } ∧
     ∀ e ∈ (exReactorPending.handle_mission_control_exited).2, ∀ ev,
       e ≠ EffectM.layoutEvent ev) ∧
    ((exReactorPending.try_apply_pending_space_change
        exOracles).1.pending_space_change = none ∧
     ((exReactorPending.try_apply_pending_space_change
        exOracles).1.try_apply_pending_space_change exOracles)
        = ((exReactorPending.try_apply_pending_space_change exOracles).1, []) ∧
     ∀ s ∈ (exReactorPending.try_apply_pending_space_change
        exOracles).1.screens, ∀ sp, s.space = some sp →
       EffectM.layoutEvent (.spaceExposed sp)
         ∈ (exReactorPending.try_apply_pending_space_change exOracles).2) :=
  c3_amended_pending_space_commit exReactorPending exOracles
    { spaces := [some 2], ws_info := [0] }
    (by decide) (by decide) (by decide) (by decide)


/-- C2: every committing scroll-system command (`move_focus`,
`select_window`, `add_window_after_selection`, `remove_window`,
`swap_windows`, `finalize_scroll`, `rebalance`) preserves the committed
invariant: no duplicate windows, `scroll_offset ∈ [0, max(0, |windows|-1)]`,
and the offset equals the selected window's index whenever a selection
exists. -/
theorem c2_committed_invariant (cfg : ScrollRuntimeConfig)
    (s : ScrollLayoutState) (hc : s.committed) (d : Dir) (w a b : WindowId) :
    (s.move_focus cfg d).1.committed ∧
    (s.select_window w).1.committed ∧
    (w ∉ s.windows → (s.add_window_after_selection cfg w).committed) ∧
    (s.remove_window_op cfg w).committed ∧
    (s.swap_windows a b).1.committed ∧
    (s.finalize_scroll cfg).1.committed ∧
    (s.rebalance cfg).committed :=
  ⟨ScrollLayoutState.committed_move_focus hc cfg d,
   ScrollLayoutState.committed_select_window hc w,
   fun hw => ScrollLayoutState.committed_add_window hc cfg hw,
   ScrollLayoutState.committed_remove_window_op hc cfg w,
   ScrollLayoutState.committed_swap_windows hc a b,
   ScrollLayoutState.committed_finalize_scroll hc cfg,
   ScrollLayoutState.committed_rebalance hc cfg⟩

/-- Witness for C2 at the concrete three-window strip. -/
theorem c2_committed_invariant_witness :
    (exStrip3.move_focus exCfg Dir.right).1.committed ∧
    (exStrip3.select_window exW1).1.committed ∧
    (exW1 ∉ exStrip3.windows →
      (exStrip3.add_window_after_selection exCfg exW1).committed) ∧
    (exStrip3.remove_window_op exCfg exW1).committed ∧
    (exStrip3.swap_windows exW0 exW2).1.committed ∧
    (exStrip3.finalize_scroll exCfg).1.committed ∧
    (exStrip3.rebalance exCfg).committed :=
  c2_committed_invariant exCfg exStrip3 (by decide) Dir.right exW1 exW0 exW2

/-- C8: every scroll-system operation keeps exactly one width entry per
window and every width at least `MIN_WIDTH_UNITS = 0.2`. -/
theorem c8_widths_invariant (cfg : ScrollRuntimeConfig)
    (s : ScrollLayoutState) (hw : s.widthsOk) (delta amount : ℚ) (d : Dir)
    (w a b : WindowId) :
    (s.scroll_by cfg delta).1.widthsOk ∧
    (s.finalize_scroll cfg).1.widthsOk ∧
    (s.move_focus cfg d).1.widthsOk ∧
    (s.add_window_after_selection cfg w).widthsOk ∧
    (s.remove_window_op cfg w).widthsOk ∧
    (s.select_window w).1.widthsOk ∧
    (s.swap_windows a b).1.widthsOk ∧
    (s.resize_selection_by cfg amount).widthsOk ∧
    (s.rebalance cfg).widthsOk ∧
    s.toggle_tile_orientation.widthsOk :=
  ⟨ScrollLayoutState.widthsOk_scroll_by hw cfg delta,
   ScrollLayoutState.widthsOk_finalize_scroll s cfg,
   ScrollLayoutState.widthsOk_move_focus hw cfg d,
   ScrollLayoutState.widthsOk_add_window s cfg w,
   ScrollLayoutState.widthsOk_remove_window_op hw cfg w,
   ScrollLayoutState.widthsOk_select_window hw w,
   ScrollLayoutState.widthsOk_swap_windows hw a b,
   ScrollLayoutState.widthsOk_resize_selection_by hw cfg amount,
   ScrollLayoutState.widthsOk_rebalance hw cfg,
   ScrollLayoutState.widthsOk_toggle hw⟩

unseal Rat.add Rat.sub Rat.mul Rat.inv Rat.ofScientific in
/-- Witness for C8 at the concrete three-window strip. -/
theorem c8_widths_invariant_witness :
    (exStrip3.scroll_by exCfg (49/100)).1.widthsOk ∧
    (exStrip3.finalize_scroll exCfg).1.widthsOk ∧
    (exStrip3.move_focus exCfg Dir.right).1.widthsOk ∧
    (exStrip3.add_window_after_selection exCfg exW1).widthsOk ∧
    (exStrip3.remove_window_op exCfg exW1).widthsOk ∧
    (exStrip3.select_window exW1).1.widthsOk ∧
    (exStrip3.swap_windows exW0 exW2).1.widthsOk ∧
    (exStrip3.resize_selection_by exCfg (3/10)).widthsOk ∧
    (exStrip3.rebalance exCfg).widthsOk ∧
    exStrip3.toggle_tile_orientation.widthsOk :=
  c8_widths_invariant exCfg exStrip3 (by decide) (49/100) (3/10) Dir.right
    exW1 exW0 exW2

end Rift
